import Mathlib

/-!
# netpoll (kqueue backend): embedding of `src/netpoll/kqueue.go`

The file embeds the kqueue poller of package `netpoll`:

* the kernel side (`unix.Kqueue`, `unix.Kevent`, `unix.Close`) is a small state
  machine over open handles and registered filters; a kernel call may also be
  rejected for a reason outside that state (`fault`);
* the wait call of `Polling` is driven by a list of wait results, one per loop
  iteration; the loop is an endless `for`, so a run over a finite list ends
  with a `return`, with a runtime panic (an index past the end of the buffer),
  or blocked in the next wait call;
* the callback is an arbitrary stateful function, its state is passed explicitly,
  and every invocation is recorded together with the error it returned.

Go `int` is 64 bits wide on every platform of the build tag.
-/

namespace netpoll

/-! ## Values of `golang.org/x/sys/unix` used by the source (darwin) -/

/-- Flag `unix.EV_ADD`. -/
def EV_ADD : Nat := 0x1
/-- Flag `unix.EV_DELETE`. -/
def EV_DELETE : Nat := 0x2
/-- Flag `unix.EV_CLEAR`. -/
def EV_CLEAR : Nat := 0x20
/-- Flag `unix.EV_ERROR`. -/
def EV_ERROR : Nat := 0x4000
/-- Flag `unix.EV_EOF`. -/
def EV_EOF : Nat := 0x8000
/-- Filter `unix.EVFILT_READ`. -/
def EVFILT_READ : Int := -1
/-- Filter `unix.EVFILT_WRITE`. -/
def EVFILT_WRITE : Int := -2
/-- Filter `unix.EVFILT_USER`. -/
def EVFILT_USER : Int := -10
/-- Filter flag `unix.NOTE_TRIGGER`. -/
def NOTE_TRIGGER : Nat := 0x1000000

/-- A Go `error` value that is not `nil`: a `unix.Errno`, or any other error. -/
inductive Error where
  | errno (code : Nat)
  | other (id : Nat)
  deriving DecidableEq, Repr

/-- Errno `unix.ENOENT`. -/
def ENOENT : Error := Error.errno 2
/-- Errno `unix.EINTR`. -/
def EINTR : Error := Error.errno 4
/-- Errno `unix.EBADF`. -/
def EBADF : Error := Error.errno 9
/-- Errno `unix.ENOMEM`. -/
def ENOMEM : Error := Error.errno 12

/-- The record `unix.Kevent_t` (the fields the source reads or writes):
`Ident` is a `uint64`, `Filter` an `int16`, `Flags` a `uint16`, `Fflags` a `uint32`. -/
structure Kevent_t where
  Ident : Nat
  Filter : Int
  Flags : Nat
  Fflags : Nat
  deriving DecidableEq, Repr

/-- The Go conversion `uint64(fd)` of an `int`. -/
def uint64 (fd : Int) : Nat := (fd % 2 ^ 64).toNat

/-- The Go conversion `int(u)` of a `uint64`. -/
def int (u : Nat) : Int :=
  if u % 2 ^ 64 < 2 ^ 63 then ((u % 2 ^ 64 : Nat) : Int) else ((u % 2 ^ 64 : Nat) : Int) - 2 ^ 64

/-! ## Kernel model -/

/-- A registered filter of a kernel queue: queue handle, identifier, filter. -/
structure Knote where
  kq : Nat
  ident : Nat
  filter : Int
  deriving DecidableEq, Repr

/-- Kernel state: the open handles, the registered filters, and the number of
kernel calls made so far. -/
structure Kernel where
  fds : List Nat
  knotes : List Knote
  syscalls : Nat
  deriving DecidableEq, Repr

/-- One entry of a change list applied to queue `kq`: `EV_ADD` registers the
filter (a registered one stays registered), `EV_DELETE` removes it, and a change
without `EV_ADD` on a filter that is not registered is rejected with `ENOENT`. -/
def Kernel.change (k : Kernel) (kq : Nat) (c : Kevent_t) : Except Error Kernel :=
  let kn : Knote := { kq := kq, ident := c.Ident, filter := c.Filter }
  if c.Flags &&& EV_ADD ≠ 0 then
    if kn ∈ k.knotes then Except.ok k else Except.ok { k with knotes := kn :: k.knotes }
  else if kn ∈ k.knotes then
    if c.Flags &&& EV_DELETE ≠ 0 then
      Except.ok { k with knotes := k.knotes.filter (fun x => decide (x ≠ kn)) }
    else Except.ok k
  else Except.error ENOENT

/-- The change list is applied in order; the first rejected change ends the call
with its error, the changes before it stay applied. -/
def Kernel.changes (k : Kernel) (kq : Nat) : List Kevent_t → Kernel × Option Error
  | [] => (k, none)
  | c :: cs =>
    match k.change kq c with
    | Except.ok k1 => Kernel.changes k1 kq cs
    | Except.error e => (k, some e)

/-- The call `unix.Kevent(kq, changes, nil, nil)`: with `fault = some e` the kernel
rejects the call with `e` and changes no registration. Returns the new kernel
state and the `err` result. -/
def Kernel.Kevent (k : Kernel) (kq : Nat) (changes : List Kevent_t) (fault : Option Error) :
    Kernel × Option Error :=
  let k0 : Kernel := { k with syscalls := k.syscalls + 1 }
  match fault with
  | some e => (k0, some e)
  | none => Kernel.changes k0 kq changes

/-- The call `unix.Kqueue()`: `res` is what the kernel answers, a fresh handle or
an error; a handle that was handed out is open. -/
def Kernel.Kqueue (k : Kernel) (res : Except Error Nat) : Kernel × Except Error Nat :=
  let k0 : Kernel := { k with syscalls := k.syscalls + 1 }
  match res with
  | Except.ok kfd => ({ k0 with fds := kfd :: k0.fds }, Except.ok kfd)
  | Except.error e => (k0, Except.error e)

/-- The call `unix.Close(fd)`: the handle is released and the filters of that
queue go with it. -/
def Kernel.Close (k : Kernel) (fd : Nat) (fault : Option Error) : Kernel × Option Error :=
  let k0 : Kernel := { k with syscalls := k.syscalls + 1 }
  match fault with
  | some e => (k0, some e)
  | none =>
    if fd ∈ k0.fds then
      ({ k0 with fds := k0.fds.filter (fun x => decide (x ≠ fd)),
                 knotes := k0.knotes.filter (fun kn => decide (kn.kq ≠ fd)) }, none)
    else (k0, some EBADF)

/-- Registration state of a descriptor in the model of the specification. -/
inductive RegState where
  | Unregistered
  | ReadOnly
  | WriteOnly
  | ReadWrite
  deriving DecidableEq, Repr

/-- The registration state of identifier `ident` on queue `kq`: the set of the
read and write filters registered for it. -/
def Kernel.regState (k : Kernel) (kq : Nat) (ident : Nat) : RegState :=
  let r : Bool := decide ((⟨kq, ident, EVFILT_READ⟩ : Knote) ∈ k.knotes)
  let w : Bool := decide ((⟨kq, ident, EVFILT_WRITE⟩ : Knote) ∈ k.knotes)
  match r, w with
  | false, false => RegState.Unregistered
  | true, false => RegState.ReadOnly
  | false, true => RegState.WriteOnly
  | true, true => RegState.ReadWrite

/-! ## Package `internal`: jobs and the job queue -/

/-- A value of the Go type `internal.Job`. The source passes `nil` where a `Job`
is expected, so `nil` is one of its values; any other job is a callable, known
here by an identity. -/
inductive Job where
  | nil
  | fn (id : Nat)
  deriving DecidableEq, Repr

/-- The queue `internal.AsyncJobQueue`: the jobs pushed and not yet drained, oldest
first. -/
structure AsyncJobQueue where
  jobs : List Job
  deriving DecidableEq, Repr

/-- Modelled from the spec: `internal.NewAsyncJobQueue` is not part of the source
file; the specification has `Open` initialise an empty queue. -/
def NewAsyncJobQueue : AsyncJobQueue := { jobs := [] }

/-- Modelled from the spec: `AsyncJobQueue.Push` is not part of the source file;
the specification has it append the job to the insertion-ordered queue. -/
def AsyncJobQueue.Push (q : AsyncJobQueue) (job : Job) : AsyncJobQueue :=
  { jobs := q.jobs ++ [job] }

/-- The loop of the drain over the jobs taken from the queue: `iter` is called
once per job, in order, and the first error ends the loop. -/
def forJobs {τ : Type} (iter : τ → Job → τ × Option Error) : List Job → τ → τ × Option Error
  | [], s => (s, none)
  | job :: rest, s =>
    match iter s job with
    | (s1, some e) => (s1, some e)
    | (s1, none) => forJobs iter rest s1

/-- Modelled from the spec: `AsyncJobQueue.ForEach` is not part of the source
file; the specification has the drain take all currently queued jobs at once,
leaving the queue empty, and call the given function once per job in push order,
returning the first error at once. `s` is the state the function works on. -/
def AsyncJobQueue.ForEach {τ : Type} (q : AsyncJobQueue) (iter : τ → Job → τ × Option Error)
    (s : τ) : AsyncJobQueue × τ × Option Error :=
  let jobs := q.jobs
  ({ jobs := [] }, forJobs iter jobs s)

/-! ## The poller -/

/-- The struct `Poller`: the kernel queue handle and the job queue. -/
structure Poller where
  fd : Nat
  asyncJobQueue : AsyncJobQueue
  deriving DecidableEq, Repr

/-- The function `OpenPoller`: `kq` is the answer of `unix.Kqueue()`, `fault` the
rejection, if any, of the call that registers the wake filter. Returns the
kernel state, the poller (or `nil`) and the error. -/
def OpenPoller (k : Kernel) (kq : Except Error Nat) (fault : Option Error) :
    Kernel × Option Poller × Option Error :=
  match k.Kqueue kq with
  | (k1, Except.error err) => (k1, none, some err)
  | (k1, Except.ok kfd) =>
    match k1.Kevent kfd [{ Ident := 0, Filter := EVFILT_USER, Flags := EV_ADD ||| EV_CLEAR,
                           Fflags := 0 }] fault with
    | (k2, some err) => (k2, none, some err)
    | (k2, none) => (k2, some { fd := kfd, asyncJobQueue := NewAsyncJobQueue }, none)

/-- The method `Close`. -/
def Poller.Close (p : Poller) (k : Kernel) (fault : Option Error) : Kernel × Option Error :=
  k.Close p.fd fault

/-- The method `Trigger`: the job is pushed, then the wake filter is triggered;
the error of that kernel call is the result. -/
def Poller.Trigger (p : Poller) (job : Job) (k : Kernel) (fault : Option Error) :
    Poller × Kernel × Option Error :=
  let p1 : Poller := { p with asyncJobQueue := p.asyncJobQueue.Push job }
  let (k1, err) := k.Kevent p1.fd [{ Ident := 0, Filter := EVFILT_USER, Flags := 0,
                                     Fflags := NOTE_TRIGGER }] fault
  (p1, k1, err)

/-- The method `AddRead`. -/
def Poller.AddRead (p : Poller) (fd : Int) (k : Kernel) (fault : Option Error) :
    Kernel × Option Error :=
  match k.Kevent p.fd [{ Ident := uint64 fd, Flags := EV_ADD, Filter := EVFILT_READ,
                         Fflags := 0 }] fault with
  | (k1, some err) => (k1, some err)
  | (k1, none) => (k1, none)

/-- The method `AddWrite`. -/
def Poller.AddWrite (p : Poller) (fd : Int) (k : Kernel) (fault : Option Error) :
    Kernel × Option Error :=
  match k.Kevent p.fd [{ Ident := uint64 fd, Flags := EV_ADD, Filter := EVFILT_WRITE,
                         Fflags := 0 }] fault with
  | (k1, some err) => (k1, some err)
  | (k1, none) => (k1, none)

/-- The method `AddReadWrite`: one kernel call with two changes. -/
def Poller.AddReadWrite (p : Poller) (fd : Int) (k : Kernel) (fault : Option Error) :
    Kernel × Option Error :=
  match k.Kevent p.fd [{ Ident := uint64 fd, Flags := EV_ADD, Filter := EVFILT_READ,
                         Fflags := 0 },
                       { Ident := uint64 fd, Flags := EV_ADD, Filter := EVFILT_WRITE,
                         Fflags := 0 }] fault with
  | (k1, some err) => (k1, some err)
  | (k1, none) => (k1, none)

/-- The method `ModRead`. -/
def Poller.ModRead (p : Poller) (fd : Int) (k : Kernel) (fault : Option Error) :
    Kernel × Option Error :=
  match k.Kevent p.fd [{ Ident := uint64 fd, Flags := EV_DELETE, Filter := EVFILT_WRITE,
                         Fflags := 0 }] fault with
  | (k1, some err) => (k1, some err)
  | (k1, none) => (k1, none)

/-- The method `ModReadWrite`. -/
def Poller.ModReadWrite (p : Poller) (fd : Int) (k : Kernel) (fault : Option Error) :
    Kernel × Option Error :=
  match k.Kevent p.fd [{ Ident := uint64 fd, Flags := EV_ADD, Filter := EVFILT_WRITE,
                         Fflags := 0 }] fault with
  | (k1, some err) => (k1, some err)
  | (k1, none) => (k1, none)

/-- The method `Delete`: no kernel call, the result is `nil`. -/
def Poller.Delete (_p : Poller) (_fd : Int) (k : Kernel) : Kernel × Option Error :=
  (k, none)

/-! ## The event loop -/

/-- Declarations of package `netpoll` that the source file uses and that live
outside it, taken as parameters: the constant `initEvents`, the constant
`EVFilterSock` (the event kind reported for a closed or failed descriptor), and
the capacity that `eventList.increase` gives to a list of a given capacity. -/
structure Env where
  initEvents : Nat
  EVFilterSock : Int
  increase : Nat → Nat

/-- The struct `eventList`: `size` is the capacity handed to the wait call. The
records of the buffer `events` are those of the wait result at hand. -/
structure eventList where
  size : Nat
  deriving DecidableEq, Repr

/-- Modelled from the spec: `newEventList` is not part of the source file; the
event list starts with the requested capacity. -/
def newEventList (size : Nat) : eventList := { size := size }

/-- Modelled from the spec: `eventList.increase` is not part of the source file;
the specification has it grow the capacity, by the amount `env.increase` says. -/
def eventList.increase (env : Env) (el : eventList) : eventList :=
  { size := env.increase el.size }

/-- One invocation of the callback: its three arguments and the error it
returned (`none` for `nil`). -/
structure Call where
  fd : Int
  filter : Int
  job : Job
  ret : Option Error
  deriving DecidableEq, Repr

/-- The arguments of an invocation. -/
def Call.args (c : Call) : Int × Int × Job := (c.fd, c.filter, c.job)

/-- The callback given to `Polling`: a Go closure, so it works on a state of its
own and answers `nil` or an error. -/
abbrev Callback (σ : Type) := σ → Int → Int → Job → σ × Option Error

/-- How a piece of the loop ends: it goes on (for a run of the whole loop: it is
at its next wait call), `Polling` returns an error, or the Go runtime panics on
an index out of range. -/
inductive Flow where
  | goOn
  | ret (err : Error)
  | panic
  deriving DecidableEq, Repr

/-- What one wait call `unix.Kevent(p.fd, nil, el.events, nil)` yields: the
results `n` and `err`, and the records of the buffer `el.events` after
the call. -/
structure WaitResult where
  n : Int
  err : Option Error
  events : List Kevent_t
  deriving DecidableEq, Repr

/-- The wrapper `unix.Kevent` reports `n = -1` together with every error. -/
def WaitResult.wf (r : WaitResult) : Prop := r.err ≠ none → r.n = -1

instance (r : WaitResult) : Decidable r.wf := by
  unfold WaitResult.wf; infer_instance

/-- The variables of `Polling` that live across iterations, with the state of
the callback. -/
structure LoopState (σ : Type) where
  hs : σ
  p : Poller
  el : eventList
  wakenUp : Bool

/-- Result of the scan of the records. -/
structure Scan (σ : Type) where
  hs : σ
  wakenUp : Bool
  calls : List Call
  flow : Flow

/-- The inner loop `for i := 0; i < n; i++` over `el.events[i]`: the first
argument is the number of records still to visit, the second the buffer from
index `i` on; reading past the end of the buffer panics. -/
def forRecords {σ : Type} (env : Env) (callback : Callback σ) :
    Nat → List Kevent_t → σ → Bool → Scan σ
  | 0, _, hs, wakenUp => { hs := hs, wakenUp := wakenUp, calls := [], flow := Flow.goOn }
  | _ + 1, [], hs, wakenUp => { hs := hs, wakenUp := wakenUp, calls := [], flow := Flow.panic }
  | m + 1, ev :: rest, hs, wakenUp =>
    let fd := int ev.Ident
    if fd ≠ 0 then
      let evFilter :=
        if (ev.Flags &&& EV_EOF ≠ 0) ∨ (ev.Flags &&& EV_ERROR ≠ 0) then env.EVFilterSock
        else ev.Filter
      match callback hs fd evFilter Job.nil with
      | (hs1, some err) =>
        { hs := hs1, wakenUp := wakenUp,
          calls := [{ fd := fd, filter := evFilter, job := Job.nil, ret := some err }],
          flow := Flow.ret err }
      | (hs1, none) =>
        let s := forRecords env callback m rest hs1 wakenUp
        { s with calls := { fd := fd, filter := evFilter, job := Job.nil, ret := none } :: s.calls }
    else forRecords env callback m rest hs true

/-- The closure given to `ForEach`: `callback(0, 0, job)`, recorded. -/
def jobIter {σ : Type} (callback : Callback σ) (w : σ × List Call) (job : Job) :
    (σ × List Call) × Option Error :=
  match callback w.1 0 0 job with
  | (hs1, err) => ((hs1, w.2 ++ [{ fd := 0, filter := 0, job := job, ret := err }]), err)

/-- Result of one iteration of the loop, and of a run of the loop. -/
structure Iter (σ : Type) where
  st : LoopState σ
  calls : List Call
  flow : Flow

/-- One iteration of the `for` loop of `Polling` on the wait result `r`. -/
def iteration {σ : Type} (env : Env) (callback : Callback σ) (st : LoopState σ)
    (r : WaitResult) : Iter σ :=
  if r.err ≠ none ∧ r.err ≠ some EINTR then
    { st := st, calls := [], flow := Flow.goOn }
  else
    let s := forRecords env callback r.n.toNat r.events st.hs st.wakenUp
    match s.flow with
    | Flow.ret err =>
      { st := { st with hs := s.hs, wakenUp := s.wakenUp }, calls := s.calls, flow := Flow.ret err }
    | Flow.panic =>
      { st := { st with hs := s.hs, wakenUp := s.wakenUp }, calls := s.calls, flow := Flow.panic }
    | Flow.goOn =>
      if s.wakenUp then
        match st.p.asyncJobQueue.ForEach (jobIter callback) (s.hs, []) with
        | (q, (hs2, jobCalls), some err) =>
          { st := { hs := hs2, p := { st.p with asyncJobQueue := q }, el := st.el,
                    wakenUp := false },
            calls := s.calls ++ jobCalls, flow := Flow.ret err }
        | (q, (hs2, jobCalls), none) =>
          { st := { hs := hs2, p := { st.p with asyncJobQueue := q },
                    el := if r.n = (st.el.size : Int) then st.el.increase env else st.el,
                    wakenUp := false },
            calls := s.calls ++ jobCalls, flow := Flow.goOn }
      else
        { st := { hs := s.hs, p := st.p,
                  el := if r.n = (st.el.size : Int) then st.el.increase env else st.el,
                  wakenUp := s.wakenUp },
          calls := s.calls, flow := Flow.goOn }

/-- The loop `for { ... }` of `Polling` run on the wait results `rs`, one per
iteration; with no result left the loop stands at its next wait call. -/
def pollLoop {σ : Type} (env : Env) (callback : Callback σ) :
    LoopState σ → List WaitResult → Iter σ
  | st, [] => { st := st, calls := [], flow := Flow.goOn }
  | st, r :: rs =>
    let it := iteration env callback st r
    match it.flow with
    | Flow.goOn =>
      let rest := pollLoop env callback it.st rs
      { rest with calls := it.calls ++ rest.calls }
    | _ => it

/-- The method `Polling`: a fresh event list, `wakenUp` false, then the loop. -/
def Poller.Polling {σ : Type} (p : Poller) (env : Env) (callback : Callback σ) (hs : σ)
    (rs : List WaitResult) : Iter σ :=
  pollLoop env callback
    { hs := hs, p := p, el := newEventList env.initEvents, wakenUp := false } rs

/-- Invariant of the invocations made by a piece of the loop that ends with
`flow`: on a `return` the last invocation is the one that failed, with the
returned error, and no earlier one failed; otherwise no invocation failed. -/
def Settled (calls : List Call) (flow : Flow) : Prop :=
  match flow with
  | Flow.ret e => ∃ pre c, calls = pre ++ [c] ∧ c.ret = some e ∧ ∀ d ∈ pre, d.ret = none
  | _ => ∀ d ∈ calls, d.ret = none

/-- The calls `Trigger(job)` made one after the other, each with the rejection,
if any, of its kernel call. -/
def triggerAll (p : Poller) (k : Kernel) : List (Job × Option Error) → Poller × Kernel
  | [] => (p, k)
  | (job, fault) :: rest =>
    match p.Trigger job k fault with
    | (p1, k1, _) => triggerAll p1 k1 rest

/-! ## Concrete values used by the witnesses -/

/-- An environment: two records of initial capacity, `-13` as the kind of a closed
or failed descriptor, and an event list that doubles. -/
def exEnv : Env := { initEvents := 2, EVFilterSock := -13, increase := fun c => 2 * c }

/-- The same environment with four records of initial capacity, enough for the
batch `exBatch`. -/
def wideEnv : Env := { initEvents := 4, EVFilterSock := -13, increase := fun c => 2 * c }

/-- The kernel after a successful `OpenPoller` that got handle 3: the handle is
open and the wake filter is registered on it. -/
def exKernel : Kernel :=
  (OpenPoller { fds := [], knotes := [], syscalls := 0 } (Except.ok 3) none).1

/-- The poller that this `OpenPoller` returns: handle 3 and an empty job queue. -/
def openedPoller : Poller := { fd := 3, asyncJobQueue := NewAsyncJobQueue }

/-- The opened poller after `Trigger(job 1)` and `Trigger(job 2)`. -/
def exPoller : Poller :=
  (triggerAll openedPoller exKernel [(Job.fn 1, none), (Job.fn 2, none)]).1

/-- The opened poller after one call `Trigger(nil)`. -/
def nilPoller : Poller := (openedPoller.Trigger Job.nil exKernel none).1

/-- A callback that counts its invocations and never fails. -/
def okCallback : Callback Nat := fun s _ _ _ => (s + 1, none)

/-- A callback that counts its invocations and fails on invocation number `k`
(counted from zero) only. -/
def failAt (k : Nat) : Callback Nat :=
  fun s _ _ _ => (s + 1, if s = k then some (Error.other 7) else none)

/-- A batch of three records: descriptor 5 readable, the wake record, descriptor 6
writable with `EV_EOF`. -/
def exBatch : WaitResult :=
  { n := 3, err := none,
    events := [{ Ident := 5, Filter := EVFILT_READ, Flags := 0, Fflags := 0 },
               { Ident := 0, Filter := EVFILT_USER, Flags := EV_CLEAR, Fflags := 0 },
               { Ident := 6, Filter := EVFILT_WRITE, Flags := EV_EOF, Fflags := 0 }] }

/-- A batch that holds the wake record only. -/
def wakeBatch : WaitResult :=
  { n := 1, err := none,
    events := [{ Ident := 0, Filter := EVFILT_USER, Flags := EV_CLEAR, Fflags := 0 }] }

/-- A batch of two descriptor records, as many as `exEnv.initEvents`. -/
def fullBatch : WaitResult :=
  { n := 2, err := none,
    events := [{ Ident := 5, Filter := EVFILT_READ, Flags := 0, Fflags := 0 },
               { Ident := 6, Filter := EVFILT_WRITE, Flags := 0, Fflags := 0 }] }

/-- An interrupted wait call. -/
def exInterrupted : WaitResult := { n := -1, err := some EINTR, events := [] }

/-- The loop at a wait call with the jobs of `exPoller` queued. -/
def exState : LoopState Nat :=
  { hs := 0, p := exPoller, el := newEventList 4, wakenUp := false }

/-- The loop at a wait call with the `nil` job of `nilPoller` queued. -/
def nilState : LoopState Nat :=
  { hs := 0, p := nilPoller, el := newEventList 4, wakenUp := false }

/-! ## Lemmas on the scan of the records -/

theorem settled_cons {c : Call} {calls : List Call} {flow : Flow} (hc : c.ret = none)
    (h : Settled calls flow) : Settled (c :: calls) flow := by
  cases flow with
  | ret e =>
    obtain ⟨pre, d, h1, h2, h3⟩ := h
    refine ⟨c :: pre, d, by simp [h1], h2, ?_⟩
    intro x hx
    rcases List.mem_cons.mp hx with rfl | hx
    · exact hc
    · exact h3 x hx
  | goOn =>
    intro x hx
    rcases List.mem_cons.mp hx with rfl | hx
    · exact hc
    · exact h x hx
  | panic =>
    intro x hx
    rcases List.mem_cons.mp hx with rfl | hx
    · exact hc
    · exact h x hx

theorem settled_append {a b : List Call} {flow : Flow} (ha : ∀ d ∈ a, d.ret = none)
    (h : Settled b flow) : Settled (a ++ b) flow := by
  induction a with
  | nil => simpa using h
  | cons c a ih =>
    have hc : c.ret = none := ha c (List.mem_cons_self c a)
    have := ih (fun d hd => ha d (List.mem_cons_of_mem c hd))
    simpa using settled_cons hc this

theorem settled_split {calls : List Call} {flow : Flow} (h : Settled calls flow)
    {pre post : List Call} {c : Call} {e : Error} (hs : calls = pre ++ c :: post)
    (hc : c.ret = some e) : flow = Flow.ret e ∧ post = [] := by
  have hmem : c ∈ calls := by simp [hs]
  cases flow with
  | goOn => have := h c hmem; simp [hc] at this
  | panic => have := h c hmem; simp [hc] at this
  | ret e1 =>
    obtain ⟨pre1, c1, h1, h2, h3⟩ := h
    rcases List.eq_nil_or_concat post with hp | ⟨post1, z, hp⟩
    · subst hp
      rw [hs] at h1
      have hcc : [c] = [c1] := (List.append_inj' h1 rfl).2
      have hcc : c = c1 := by simpa using hcc
      subst hcc
      rw [hc] at h2
      simp only [Option.some.injEq] at h2
      exact ⟨by rw [h2], rfl⟩
    · exfalso
      have h0 : pre1 ++ [c1] = (pre ++ c :: post1) ++ [z] := by
        rw [← h1, hs, hp]; simp
      have hpre : pre1 = pre ++ c :: post1 := (List.append_inj' h0 rfl).1
      have : c ∈ pre1 := by rw [hpre]; simp
      have := h3 c this
      simp [hc] at this

theorem forRecords_settled {σ : Type} (env : Env) (callback : Callback σ) (m : Nat)
    (evs : List Kevent_t) (hs : σ) (w : Bool) :
    Settled (forRecords env callback m evs hs w).calls (forRecords env callback m evs hs w).flow := by
  induction m generalizing evs hs w with
  | zero => simp [forRecords, Settled]
  | succ m ih =>
    cases evs with
    | nil => simp [forRecords, Settled]
    | cons ev rest =>
      simp only [forRecords]
      split
      · split
        · rename_i hs1 err heq
          exact ⟨[], _, rfl, rfl, by simp⟩
        · rename_i hs1 heq
          exact settled_cons rfl (ih rest hs1 w)
      · exact ih rest hs true

theorem int_eq_zero_iff {u : Nat} (hu : u < 2 ^ 64) : int u = 0 ↔ u = 0 := by
  unfold int
  rw [Nat.mod_eq_of_lt hu]
  constructor
  · intro h
    split at h
    · exact_mod_cast h
    · rename_i hlt
      have h1 : (u : Int) < 2 ^ 64 := by exact_mod_cast hu
      omega
  · intro h
    subst h
    simp

theorem forRecords_origin {σ : Type} (env : Env) (callback : Callback σ) (m : Nat)
    (evs : List Kevent_t) (hs : σ) (w : Bool) :
    ∀ c ∈ (forRecords env callback m evs hs w).calls, c.fd ≠ 0 ∧ c.job = Job.nil := by
  induction m generalizing evs hs w with
  | zero => simp [forRecords]
  | succ m ih =>
    cases evs with
    | nil => simp [forRecords]
    | cons ev rest =>
      simp only [forRecords]
      split
      · rename_i hfd
        split
        · intro c hc
          simp only [List.mem_singleton] at hc
          subst hc
          exact ⟨hfd, rfl⟩
        · rename_i hs1 heq
          intro c hc
          rcases List.mem_cons.mp hc with rfl | hc
          · exact ⟨hfd, rfl⟩
          · exact ih rest hs1 w c hc
      · exact ih rest hs true

theorem forRecords_shape {σ : Type} (env : Env) (callback : Callback σ) (m : Nat)
    (evs : List Kevent_t) (hs : σ) (w : Bool)
    (hr : ∀ ev ∈ evs, ev.Ident < 2 ^ 64)
    (hok : ∀ c ∈ (forRecords env callback m evs hs w).calls, c.ret = none) :
    (forRecords env callback m evs hs w).calls.map Call.args
        = ((evs.take m).filter (fun ev => decide (ev.Ident ≠ 0))).map
            (fun ev => (int ev.Ident,
              if (ev.Flags &&& EV_EOF ≠ 0) ∨ (ev.Flags &&& EV_ERROR ≠ 0) then env.EVFilterSock
              else ev.Filter, Job.nil))
      ∧ (m ≤ evs.length →
          (forRecords env callback m evs hs w).flow = Flow.goOn
          ∧ (forRecords env callback m evs hs w).wakenUp
              = (w || (evs.take m).any (fun ev => decide (ev.Ident = 0)))) := by
  induction m generalizing evs hs w with
  | zero => simp [forRecords]
  | succ m ih =>
    cases evs with
    | nil => simp [forRecords]
    | cons ev rest =>
      have hev : ev.Ident < 2 ^ 64 := hr ev (List.mem_cons_self ev rest)
      have hrest : ∀ x ∈ rest, x.Ident < 2 ^ 64 := fun x hx => hr x (List.mem_cons_of_mem ev hx)
      have hz := int_eq_zero_iff hev
      simp only [forRecords] at hok ⊢
      split at hok
      · rename_i hfd
        have hne : ev.Ident ≠ 0 := fun h => hfd (hz.mpr h)
        rw [if_pos hfd]
        split at hok
        · exfalso
          have := hok _ (List.mem_singleton.mpr rfl)
          simp at this
        · rename_i hs1 heq
          have hok1 : ∀ c ∈ (forRecords env callback m rest hs1 w).calls, c.ret = none :=
            fun c hc => hok c (List.mem_cons_of_mem _ hc)
          obtain ⟨h1, h2⟩ := ih rest hs1 w hrest hok1
          refine ⟨?_, ?_⟩
          · simp only [List.map_cons, List.take_succ_cons]
            rw [List.filter_cons_of_pos (by simpa using hne), List.map_cons, h1]
            rfl
          · intro hle
            obtain ⟨h3, h4⟩ := h2 (by simpa using hle)
            refine ⟨h3, ?_⟩
            simp only [h4, List.take_succ_cons, List.any_cons]
            simp [hne]
      · rename_i hfd
        have hzero : ev.Ident = 0 := hz.mp (not_not.mp hfd)
        rw [if_neg hfd]
        obtain ⟨h1, h2⟩ := ih rest hs true hrest hok
        refine ⟨?_, ?_⟩
        · simp only [List.take_succ_cons]
          rw [List.filter_cons_of_neg (by simp [hzero]), h1]
        · intro hle
          obtain ⟨h3, h4⟩ := h2 (by simpa using hle)
          refine ⟨h3, ?_⟩
          simp only [h4, List.take_succ_cons, List.any_cons]
          simp [hzero]

/-! ## Lemmas on the drain of the job queue -/

theorem forJobs_jobIter {σ : Type} (callback : Callback σ) (jobs : List Job) (hs : σ)
    (t : List Call) :
    ∃ new : List Call,
      (forJobs (jobIter callback) jobs (hs, t)).1.2 = t ++ new
      ∧ Settled new (match (forJobs (jobIter callback) jobs (hs, t)).2 with
                     | some e => Flow.ret e
                     | none => Flow.goOn)
      ∧ (∀ c ∈ new, c.fd = 0 ∧ c.filter = 0 ∧ c.job ∈ jobs)
      ∧ ((∀ c ∈ new, c.ret = none) →
          (forJobs (jobIter callback) jobs (hs, t)).2 = none
          ∧ new.map Call.args = jobs.map (fun job => ((0 : Int), (0 : Int), job))) := by
  induction jobs generalizing hs t with
  | nil => exact ⟨[], by simp [forJobs, Settled]⟩
  | cons job rest ih =>
    cases hcb : callback hs 0 0 job with
    | mk hs1 err =>
      cases err with
      | some e =>
        refine ⟨[{ fd := 0, filter := 0, job := job, ret := some e }], ?_, ?_, ?_, ?_⟩
        · simp [forJobs, jobIter, hcb]
        · simp only [forJobs, jobIter, hcb]
          exact ⟨[], _, rfl, rfl, by simp⟩
        · simp
        · intro h
          have := h _ (List.mem_singleton.mpr rfl)
          simp at this
      | none =>
        obtain ⟨new, h1, h2, h3, h4⟩ :=
          ih hs1 (t ++ [{ fd := 0, filter := 0, job := job, ret := none }])
        have hstep : forJobs (jobIter callback) (job :: rest) (hs, t)
            = forJobs (jobIter callback) rest
                (hs1, t ++ [{ fd := 0, filter := 0, job := job, ret := none }]) := by
          simp [forJobs, jobIter, hcb]
        refine ⟨{ fd := 0, filter := 0, job := job, ret := none } :: new, ?_, ?_, ?_, ?_⟩
        · rw [hstep, h1]; simp
        · rw [hstep]; exact settled_cons rfl h2
        · intro c hc
          rcases List.mem_cons.mp hc with rfl | hc
          · simp
          · obtain ⟨a, b, d⟩ := h3 c hc
            exact ⟨a, b, List.mem_cons_of_mem _ d⟩
        · intro h
          obtain ⟨a, b⟩ := h4 (fun c hc => h c (List.mem_cons_of_mem _ hc))
          rw [hstep]
          refine ⟨a, ?_⟩
          simp [b, Call.args]

/-! ## Lemmas on one iteration -/

theorem iteration_cases {σ : Type} (env : Env) (callback : Callback σ) (st : LoopState σ)
    (r : WaitResult) :
    (r.err ≠ none ∧ r.err ≠ some EINTR
      ∧ iteration env callback st r = { st := st, calls := [], flow := Flow.goOn })
    ∨ (¬ (r.err ≠ none ∧ r.err ≠ some EINTR)
      ∧ ((∃ e, (forRecords env callback r.n.toNat r.events st.hs st.wakenUp).flow = Flow.ret e
            ∧ (iteration env callback st r).flow = Flow.ret e
            ∧ (iteration env callback st r).calls
                = (forRecords env callback r.n.toNat r.events st.hs st.wakenUp).calls
            ∧ (iteration env callback st r).st.p = st.p
            ∧ (iteration env callback st r).st.el = st.el)
        ∨ ((forRecords env callback r.n.toNat r.events st.hs st.wakenUp).flow = Flow.panic
            ∧ (iteration env callback st r).flow = Flow.panic
            ∧ (iteration env callback st r).calls
                = (forRecords env callback r.n.toNat r.events st.hs st.wakenUp).calls
            ∧ (iteration env callback st r).st.p = st.p
            ∧ (iteration env callback st r).st.el = st.el)
        ∨ ((forRecords env callback r.n.toNat r.events st.hs st.wakenUp).flow = Flow.goOn
            ∧ (forRecords env callback r.n.toNat r.events st.hs st.wakenUp).wakenUp = false
            ∧ (iteration env callback st r).flow = Flow.goOn
            ∧ (iteration env callback st r).calls
                = (forRecords env callback r.n.toNat r.events st.hs st.wakenUp).calls
            ∧ (iteration env callback st r).st.p = st.p
            ∧ (iteration env callback st r).st.wakenUp = false
            ∧ (iteration env callback st r).st.el
                = if r.n = (st.el.size : Int) then st.el.increase env else st.el)
        ∨ ((forRecords env callback r.n.toNat r.events st.hs st.wakenUp).flow = Flow.goOn
            ∧ (forRecords env callback r.n.toNat r.events st.hs st.wakenUp).wakenUp = true
            ∧ ∃ new : List Call,
                (iteration env callback st r).calls
                  = (forRecords env callback r.n.toNat r.events st.hs st.wakenUp).calls ++ new
              ∧ (iteration env callback st r).st.p.asyncJobQueue.jobs = []
              ∧ (iteration env callback st r).st.p.fd = st.p.fd
              ∧ (iteration env callback st r).st.wakenUp = false
              ∧ Settled new (iteration env callback st r).flow
              ∧ (iteration env callback st r).flow ≠ Flow.panic
              ∧ (∀ c ∈ new, c.fd = 0 ∧ c.filter = 0 ∧ c.job ∈ st.p.asyncJobQueue.jobs)
              ∧ ((∀ c ∈ new, c.ret = none) →
                  (iteration env callback st r).flow = Flow.goOn
                  ∧ new.map Call.args
                      = st.p.asyncJobQueue.jobs.map (fun job => ((0 : Int), (0 : Int), job)))
              ∧ ((iteration env callback st r).flow = Flow.goOn →
                  (iteration env callback st r).st.el
                    = if r.n = (st.el.size : Int) then st.el.increase env else st.el)
              ∧ ((iteration env callback st r).flow ≠ Flow.goOn →
                  (iteration env callback st r).st.el = st.el)))) := by
  by_cases hc : r.err ≠ none ∧ r.err ≠ some EINTR
  · left
    exact ⟨hc.1, hc.2, by simp only [iteration, if_pos hc]⟩
  · right
    refine ⟨hc, ?_⟩
    simp only [iteration, if_neg hc]
    cases hflow : (forRecords env callback r.n.toNat r.events st.hs st.wakenUp).flow with
    | ret e => left; exact ⟨e, rfl, rfl, rfl, rfl, rfl⟩
    | panic => right; left; exact ⟨rfl, rfl, rfl, rfl, rfl⟩
    | goOn =>
      right; right
      cases hw : (forRecords env callback r.n.toNat r.events st.hs st.wakenUp).wakenUp with
      | false =>
        left
        simp
      | true =>
        right
        obtain ⟨new, h1, h2, h3, h4⟩ := forJobs_jobIter callback st.p.asyncJobQueue.jobs
          (forRecords env callback r.n.toNat r.events st.hs st.wakenUp).hs []
        simp only [if_true, AsyncJobQueue.ForEach]
        refine ⟨trivial, trivial, new, ?_⟩
        cases hd : forJobs (jobIter callback) st.p.asyncJobQueue.jobs
            ((forRecords env callback r.n.toNat r.events st.hs st.wakenUp).hs, []) with
        | mk w1 err =>
          cases w1 with
          | mk hs2 jobCalls =>
            rw [hd] at h1 h2 h4
            simp only [List.nil_append] at h1
            subst h1
            cases err with
            | some e =>
              refine ⟨rfl, rfl, rfl, rfl, h2, by simp, h3, ?_, by simp, by simp⟩
              intro hok
              have := (h4 hok).1
              simp at this
            | none =>
              refine ⟨rfl, rfl, rfl, rfl, h2, by simp, h3, ?_, by simp, by simp⟩
              intro hok
              exact ⟨rfl, (h4 hok).2⟩

theorem iteration_settled {σ : Type} (env : Env) (callback : Callback σ) (st : LoopState σ)
    (r : WaitResult) :
    Settled (iteration env callback st r).calls (iteration env callback st r).flow := by
  have hrec := forRecords_settled env callback r.n.toNat r.events st.hs st.wakenUp
  rcases iteration_cases env callback st r with ⟨_, _, h⟩ | ⟨_, h⟩
  · rw [h]; simp [Settled]
  · rcases h with ⟨e, h1, h2, h3, _⟩ | ⟨h1, h2, h3, _⟩ | ⟨h1, _, h2, h3, _⟩
        | ⟨h1, _, new, h3, _, _, _, h4, _⟩
    · rw [h2, h3, ← h1]; exact hrec
    · rw [h2, h3, ← h1]; exact hrec
    · rw [h2, h3, ← h1]; exact hrec
    · rw [h3]
      rw [h1] at hrec
      exact settled_append hrec h4

theorem iteration_origin {σ : Type} (env : Env) (callback : Callback σ) (st : LoopState σ)
    (r : WaitResult) :
    ∀ c ∈ (iteration env callback st r).calls,
      (c.fd ≠ 0 ∧ c.job = Job.nil)
      ∨ (c.fd = 0 ∧ c.filter = 0 ∧ c.job ∈ st.p.asyncJobQueue.jobs) := by
  have hrec := forRecords_origin env callback r.n.toNat r.events st.hs st.wakenUp
  intro c hc
  rcases iteration_cases env callback st r with ⟨_, _, h⟩ | ⟨_, h⟩
  · rw [h] at hc; simp at hc
  · rcases h with ⟨e, _, _, h3, _⟩ | ⟨_, _, h3, _⟩ | ⟨_, _, _, h3, _⟩
        | ⟨_, _, new, h3, _, _, _, _, _, h5, _⟩
    · rw [h3] at hc; exact Or.inl (hrec c hc)
    · rw [h3] at hc; exact Or.inl (hrec c hc)
    · rw [h3] at hc; exact Or.inl (hrec c hc)
    · rw [h3] at hc
      rcases List.mem_append.mp hc with hc | hc
      · exact Or.inl (hrec c hc)
      · exact Or.inr (h5 c hc)

theorem iteration_queue {σ : Type} (env : Env) (callback : Callback σ) (st : LoopState σ)
    (r : WaitResult) :
    ∀ job ∈ (iteration env callback st r).st.p.asyncJobQueue.jobs,
      job ∈ st.p.asyncJobQueue.jobs := by
  intro job hj
  rcases iteration_cases env callback st r with ⟨_, _, h⟩ | ⟨_, h⟩
  · rw [h] at hj; exact hj
  · rcases h with ⟨e, _, _, _, h4, _⟩ | ⟨_, _, _, h4, _⟩ | ⟨_, _, _, _, h4, _⟩
        | ⟨_, _, new, _, h4, _⟩
    · rw [h4] at hj; exact hj
    · rw [h4] at hj; exact hj
    · rw [h4] at hj; exact hj
    · rw [h4] at hj; simp at hj

theorem iteration_wakenUp {σ : Type} (env : Env) (callback : Callback σ) (st : LoopState σ)
    (r : WaitResult) (hw : st.wakenUp = false)
    (hgo : (iteration env callback st r).flow = Flow.goOn) :
    (iteration env callback st r).st.wakenUp = false := by
  rcases iteration_cases env callback st r with ⟨_, _, h⟩ | ⟨_, h⟩
  · rw [h]; exact hw
  · rcases h with ⟨e, _, h2, _⟩ | ⟨_, h2, _⟩ | ⟨_, _, _, _, _, h5, _⟩
        | ⟨_, _, new, _, _, _, h5, _⟩
    · rw [h2] at hgo; simp at hgo
    · rw [h2] at hgo; simp at hgo
    · exact h5
    · exact h5

theorem iteration_capacity {σ : Type} (env : Env) (callback : Callback σ) (st : LoopState σ)
    (r : WaitResult) :
    ((iteration env callback st r).flow = Flow.goOn → r.err = none → r.n = (st.el.size : Int) →
        (iteration env callback st r).st.el.size = env.increase st.el.size)
    ∧ (¬ ((iteration env callback st r).flow = Flow.goOn ∧ r.n = (st.el.size : Int)) →
        (iteration env callback st r).st.el.size = st.el.size)
    ∧ ((iteration env callback st r).st.el.size = st.el.size
        ∨ (iteration env callback st r).st.el.size = env.increase st.el.size) := by
  rcases iteration_cases env callback st r with ⟨h0, h1, h⟩ | ⟨_, h⟩
  · rw [h]
    refine ⟨?_, fun _ => rfl, Or.inl rfl⟩
    intro _ he
    exact absurd he h0
  · rcases h with ⟨e, _, h2, _, _, h5⟩ | ⟨_, h2, _, _, h5⟩ | ⟨_, _, h2, _, _, _, h5⟩
        | ⟨_, _, new, _, _, _, _, _, _, _, _, h5, h6⟩
    · rw [h2, h5]; simp
    · rw [h2, h5]; simp
    · rw [h2, h5]
      by_cases hn : r.n = (st.el.size : Int)
      · simp [hn, eventList.increase]
      · simp [hn]
    · by_cases hgo : (iteration env callback st r).flow = Flow.goOn
      · rw [h5 hgo]
        by_cases hn : r.n = (st.el.size : Int)
        · simp [hn, hgo, eventList.increase]
        · simp [hn]
      · rw [h6 hgo]
        simp [hgo]

theorem iteration_failed_wait {σ : Type} (env : Env) (callback : Callback σ)
    (st : LoopState σ) (r : WaitResult) (hw : st.wakenUp = false) (hfail : r.err ≠ none)
    (hwf : r.wf) :
    iteration env callback st r = { st := st, calls := [], flow := Flow.goOn } := by
  have hn : r.n = -1 := hwf hfail
  by_cases hc : r.err ≠ none ∧ r.err ≠ some EINTR
  · simp only [iteration, if_pos hc]
  · simp only [iteration, if_neg hc, hn]
    have h1 : (-1 : Int).toNat = 0 := rfl
    have h2 : ¬ ((-1 : Int) = (st.el.size : Int)) := by omega
    simp only [h1, forRecords, hw, if_neg h2]
    simp
    cases st
    simp_all

/-! ## Lemmas on runs of the loop -/

theorem pollLoop_settled {σ : Type} (env : Env) (callback : Callback σ) (st : LoopState σ)
    (rs : List WaitResult) :
    Settled (pollLoop env callback st rs).calls (pollLoop env callback st rs).flow := by
  induction rs generalizing st with
  | nil => simp [pollLoop, Settled]
  | cons r rs ih =>
    have hit := iteration_settled env callback st r
    simp only [pollLoop]
    split
    · rename_i hgo
      rw [hgo] at hit
      exact settled_append hit (ih _)
    · exact hit

theorem pollLoop_origin {σ : Type} (env : Env) (callback : Callback σ) (st : LoopState σ)
    (rs : List WaitResult) :
    ∀ c ∈ (pollLoop env callback st rs).calls,
      (c.fd ≠ 0 ∧ c.job = Job.nil)
      ∨ (c.fd = 0 ∧ c.filter = 0 ∧ c.job ∈ st.p.asyncJobQueue.jobs) := by
  induction rs generalizing st with
  | nil => simp [pollLoop]
  | cons r rs ih =>
    have hit := iteration_origin env callback st r
    have hq := iteration_queue env callback st r
    simp only [pollLoop]
    split
    · intro c hc
      rcases List.mem_append.mp hc with hc | hc
      · exact hit c hc
      · rcases ih _ c hc with h | ⟨h1, h2, h3⟩
        · exact Or.inl h
        · exact Or.inr ⟨h1, h2, hq _ h3⟩
    · exact hit

theorem pollLoop_wakenUp {σ : Type} (env : Env) (callback : Callback σ) (st : LoopState σ)
    (rs : List WaitResult) (hw : st.wakenUp = false)
    (hgo : (pollLoop env callback st rs).flow = Flow.goOn) :
    (pollLoop env callback st rs).st.wakenUp = false := by
  induction rs generalizing st with
  | nil => simpa [pollLoop] using hw
  | cons r rs ih =>
    simp only [pollLoop] at hgo ⊢
    split at hgo
    · rename_i h
      exact ih _ (iteration_wakenUp env callback st r hw h) hgo
    · rename_i h
      exact absurd hgo (by simpa using h)

theorem pollLoop_cons_goOn {σ : Type} (env : Env) (callback : Callback σ) (st : LoopState σ)
    (r : WaitResult) (rs : List WaitResult)
    (h : (iteration env callback st r).flow = Flow.goOn) :
    pollLoop env callback st (r :: rs)
      = { st := (pollLoop env callback (iteration env callback st r).st rs).st,
          calls := (iteration env callback st r).calls
                    ++ (pollLoop env callback (iteration env callback st r).st rs).calls,
          flow := (pollLoop env callback (iteration env callback st r).st rs).flow } := by
  simp only [pollLoop, h]

theorem pollLoop_cons_stop {σ : Type} (env : Env) (callback : Callback σ) (st : LoopState σ)
    (r : WaitResult) (rs : List WaitResult)
    (h : (iteration env callback st r).flow ≠ Flow.goOn) :
    pollLoop env callback st (r :: rs) = iteration env callback st r := by
  cases hf : (iteration env callback st r).flow with
  | goOn => exact absurd hf h
  | ret e => simp only [pollLoop, hf]
  | panic => simp only [pollLoop, hf]

theorem pollLoop_skip_failed {σ : Type} (env : Env) (callback : Callback σ)
    (st : LoopState σ) (pre post : List WaitResult) (r : WaitResult)
    (hw : st.wakenUp = false) (hfail : r.err ≠ none) (hwf : r.wf) :
    pollLoop env callback st (pre ++ r :: post) = pollLoop env callback st (pre ++ post) := by
  induction pre generalizing st with
  | nil =>
    have hit := iteration_failed_wait env callback st r hw hfail hwf
    have hgo : (iteration env callback st r).flow = Flow.goOn := by rw [hit]
    rw [List.nil_append, List.nil_append, pollLoop_cons_goOn env callback st r post hgo, hit]
    simp
  | cons a pre ih =>
    rw [List.cons_append, List.cons_append]
    by_cases h : (iteration env callback st a).flow = Flow.goOn
    · rw [pollLoop_cons_goOn env callback st a _ h, pollLoop_cons_goOn env callback st a _ h,
        ih _ (iteration_wakenUp env callback st a hw h)]
    · rw [pollLoop_cons_stop env callback st a _ h, pollLoop_cons_stop env callback st a _ h]

theorem pollLoop_snoc {σ : Type} (env : Env) (callback : Callback σ) (st : LoopState σ)
    (pre : List WaitResult) (r : WaitResult)
    (hgo : (pollLoop env callback st pre).flow = Flow.goOn) :
    pollLoop env callback st (pre ++ [r])
      = { st := (iteration env callback (pollLoop env callback st pre).st r).st,
          calls := (pollLoop env callback st pre).calls
                    ++ (iteration env callback (pollLoop env callback st pre).st r).calls,
          flow := (iteration env callback (pollLoop env callback st pre).st r).flow } := by
  induction pre generalizing st with
  | nil =>
    rw [List.nil_append]
    cases hf : (iteration env callback st r).flow with
    | goOn => rw [pollLoop_cons_goOn env callback st r [] hf]; simp [pollLoop, hf]
    | ret e =>
      rw [pollLoop_cons_stop env callback st r [] (by simp [hf])]; simp [pollLoop, ← hf]
    | panic =>
      rw [pollLoop_cons_stop env callback st r [] (by simp [hf])]; simp [pollLoop, ← hf]
  | cons a pre ih =>
    by_cases h : (iteration env callback st a).flow = Flow.goOn
    · rw [pollLoop_cons_goOn env callback st a pre h] at hgo ⊢
      rw [List.cons_append, pollLoop_cons_goOn env callback st a _ h, ih _ hgo]
      simp
    · rw [pollLoop_cons_stop env callback st a pre h] at hgo
      exact absurd hgo h

theorem iteration_shape {σ : Type} (env : Env) (callback : Callback σ) (st : LoopState σ)
    (r : WaitResult) (hw : st.wakenUp = false)
    (herr : ¬ (r.err ≠ none ∧ r.err ≠ some EINTR))
    (hn : r.n.toNat ≤ r.events.length) (hr : ∀ ev ∈ r.events, ev.Ident < 2 ^ 64)
    (hok : ∀ c ∈ (iteration env callback st r).calls, c.ret = none) :
    (iteration env callback st r).flow = Flow.goOn
    ∧ (iteration env callback st r).calls.map Call.args
        = ((r.events.take r.n.toNat).filter (fun ev => decide (ev.Ident ≠ 0))).map
            (fun ev => (int ev.Ident,
              if (ev.Flags &&& EV_EOF ≠ 0) ∨ (ev.Flags &&& EV_ERROR ≠ 0) then env.EVFilterSock
              else ev.Filter, Job.nil))
          ++ (if (r.events.take r.n.toNat).any (fun ev => decide (ev.Ident = 0)) then
                st.p.asyncJobQueue.jobs.map (fun job => ((0 : Int), (0 : Int), job))
              else [])
    ∧ ((r.events.take r.n.toNat).any (fun ev => decide (ev.Ident = 0)) = true →
        (iteration env callback st r).st.p.asyncJobQueue.jobs = []) := by
  rcases iteration_cases env callback st r with ⟨h0, h1, _⟩ | ⟨_, h⟩
  · exact absurd ⟨h0, h1⟩ herr
  · rcases h with ⟨e, h1, _, h3, _⟩ | ⟨h1, _, h3, _⟩ | ⟨_, h2, h3, h4, _⟩
        | ⟨_, h2, new, h4, h5, _, _, _, _, _, h9, _⟩
    · rw [h3] at hok
      have := ((forRecords_shape env callback _ _ _ _ hr hok).2 hn).1
      rw [h1] at this
      simp at this
    · rw [h3] at hok
      have := ((forRecords_shape env callback _ _ _ _ hr hok).2 hn).1
      rw [h1] at this
      simp at this
    · rw [h4] at hok
      obtain ⟨ha, hb⟩ := forRecords_shape env callback _ _ _ _ hr hok
      have hany := (hb hn).2
      rw [h2, hw, Bool.false_or] at hany
      rw [h4, ha, ← hany]
      simp [h3]
    · have hok1 : ∀ c ∈ (forRecords env callback r.n.toNat r.events st.hs st.wakenUp).calls,
          c.ret = none := fun c hc => hok c (by rw [h4]; exact List.mem_append_left _ hc)
      have hok2 : ∀ c ∈ new, c.ret = none :=
        fun c hc => hok c (by rw [h4]; exact List.mem_append_right _ hc)
      obtain ⟨ha, hb⟩ := forRecords_shape env callback _ _ _ _ hr hok1
      have hany := (hb hn).2
      rw [h2, hw, Bool.false_or] at hany
      obtain ⟨hc, hd⟩ := h9 hok2
      rw [h4, List.map_append, ha, hd, ← hany]
      simp [hc, h5]

theorem triggerAll_queue (p : Poller) (k : Kernel) (pushes : List (Job × Option Error)) :
    (triggerAll p k pushes).1.asyncJobQueue.jobs
        = p.asyncJobQueue.jobs ++ pushes.map Prod.fst
    ∧ (triggerAll p k pushes).1.fd = p.fd := by
  induction pushes generalizing p k with
  | nil => simp [triggerAll]
  | cons a rest ih =>
    obtain ⟨job, fault⟩ := a
    simp only [triggerAll, Poller.Trigger]
    obtain ⟨h1, h2⟩ := ih { p with asyncJobQueue := p.asyncJobQueue.Push job }
      (k.Kevent p.fd [{ Ident := 0, Filter := EVFILT_USER, Flags := 0,
                        Fflags := NOTE_TRIGGER }] fault).1
    refine ⟨?_, ?_⟩
    · rw [h1]; simp [AsyncJobQueue.Push]
    · rw [h2]

/-! ## Lemmas on the kernel model -/

theorem change_add (k : Kernel) (kq ident : Nat) (filter : Int) :
    ∃ k1, k.change kq { Ident := ident, Filter := filter, Flags := EV_ADD, Fflags := 0 }
        = Except.ok k1
      ∧ k1.syscalls = k.syscalls ∧ k1.fds = k.fds
      ∧ ∀ kn, kn ∈ k1.knotes ↔ (kn = ⟨kq, ident, filter⟩ ∨ kn ∈ k.knotes) := by
  have hflag : EV_ADD &&& EV_ADD ≠ 0 := by decide
  by_cases hmem : (⟨kq, ident, filter⟩ : Knote) ∈ k.knotes
  · refine ⟨k, by simp only [Kernel.change, if_pos hflag, if_pos hmem], rfl, rfl, ?_⟩
    intro kn
    constructor
    · intro h; exact Or.inr h
    · rintro (h | h)
      · rw [h]; exact hmem
      · exact h
  · refine ⟨{ k with knotes := ⟨kq, ident, filter⟩ :: k.knotes },
      by simp only [Kernel.change, if_pos hflag, if_neg hmem], rfl, rfl, ?_⟩
    intro kn
    simp

theorem change_delete (k : Kernel) (kq ident : Nat) (filter : Int) :
    (∃ k1, k.change kq { Ident := ident, Filter := filter, Flags := EV_DELETE, Fflags := 0 }
        = Except.ok k1
      ∧ k1.syscalls = k.syscalls ∧ k1.fds = k.fds
      ∧ ∀ kn, kn ∈ k1.knotes ↔ (kn ≠ ⟨kq, ident, filter⟩ ∧ kn ∈ k.knotes))
    ∨ k.change kq { Ident := ident, Filter := filter, Flags := EV_DELETE, Fflags := 0 }
        = Except.error ENOENT := by
  have hflag : ¬ (EV_DELETE &&& EV_ADD ≠ 0) := by decide
  have hflag2 : EV_DELETE &&& EV_DELETE ≠ 0 := by decide
  by_cases hmem : (⟨kq, ident, filter⟩ : Knote) ∈ k.knotes
  · left
    refine ⟨{ k with knotes := k.knotes.filter (fun x => decide (x ≠ ⟨kq, ident, filter⟩)) },
      by simp only [Kernel.change, if_neg hflag, if_pos hmem, if_pos hflag2], rfl, rfl, ?_⟩
    intro kn
    simp [List.mem_filter, and_comm]
  · right
    simp only [Kernel.change, if_neg hflag, if_neg hmem]

theorem regState_congr {k k1 : Kernel} {kq ident : Nat}
    (hr : (⟨kq, ident, EVFILT_READ⟩ : Knote) ∈ k1.knotes
        ↔ (⟨kq, ident, EVFILT_READ⟩ : Knote) ∈ k.knotes)
    (hw : (⟨kq, ident, EVFILT_WRITE⟩ : Knote) ∈ k1.knotes
        ↔ (⟨kq, ident, EVFILT_WRITE⟩ : Knote) ∈ k.knotes) :
    k1.regState kq ident = k.regState kq ident := by
  unfold Kernel.regState
  simp only [hr, hw]

theorem regState_iff (k : Kernel) (kq ident : Nat) :
    (k.regState kq ident = RegState.Unregistered
        ↔ (⟨kq, ident, EVFILT_READ⟩ : Knote) ∉ k.knotes
          ∧ (⟨kq, ident, EVFILT_WRITE⟩ : Knote) ∉ k.knotes)
    ∧ (k.regState kq ident = RegState.ReadOnly
        ↔ (⟨kq, ident, EVFILT_READ⟩ : Knote) ∈ k.knotes
          ∧ (⟨kq, ident, EVFILT_WRITE⟩ : Knote) ∉ k.knotes)
    ∧ (k.regState kq ident = RegState.WriteOnly
        ↔ (⟨kq, ident, EVFILT_READ⟩ : Knote) ∉ k.knotes
          ∧ (⟨kq, ident, EVFILT_WRITE⟩ : Knote) ∈ k.knotes)
    ∧ (k.regState kq ident = RegState.ReadWrite
        ↔ (⟨kq, ident, EVFILT_READ⟩ : Knote) ∈ k.knotes
          ∧ (⟨kq, ident, EVFILT_WRITE⟩ : Knote) ∈ k.knotes) := by
  unfold Kernel.regState
  by_cases h1 : (⟨kq, ident, EVFILT_READ⟩ : Knote) ∈ k.knotes <;>
    by_cases h2 : (⟨kq, ident, EVFILT_WRITE⟩ : Knote) ∈ k.knotes <;>
    simp [h1, h2]

theorem read_ne_write (kq ident : Nat) :
    (⟨kq, ident, EVFILT_READ⟩ : Knote) ≠ ⟨kq, ident, EVFILT_WRITE⟩ := by
  intro h
  have := congrArg Knote.filter h
  simp [EVFILT_READ, EVFILT_WRITE] at this

theorem Kevent_add (k : Kernel) (kq ident : Nat) (filter : Int) (fault : Option Error) :
    (k.Kevent kq [{ Ident := ident, Filter := filter, Flags := EV_ADD, Fflags := 0 }]
        fault).1.syscalls = k.syscalls + 1
    ∧ (∀ kn : Knote, kn.kq ≠ kq ∨ kn.ident ≠ ident →
        (kn ∈ (k.Kevent kq [{ Ident := ident, Filter := filter, Flags := EV_ADD, Fflags := 0 }]
            fault).1.knotes ↔ kn ∈ k.knotes))
    ∧ ((k.Kevent kq [{ Ident := ident, Filter := filter, Flags := EV_ADD, Fflags := 0 }]
          fault).2 = none →
        ∀ kn, kn ∈ (k.Kevent kq [{ Ident := ident, Filter := filter, Flags := EV_ADD,
                                   Fflags := 0 }] fault).1.knotes
          ↔ (kn = ⟨kq, ident, filter⟩ ∨ kn ∈ k.knotes)) := by
  cases fault with
  | some e => simp [Kernel.Kevent]
  | none =>
    obtain ⟨k1, h1, h2, _, h4⟩ := change_add { k with syscalls := k.syscalls + 1 } kq ident filter
    simp only [Kernel.Kevent, Kernel.changes, h1]
    refine ⟨h2, ?_, fun _ => h4⟩
    intro kn hne
    rw [h4 kn]
    constructor
    · rintro (h | h)
      · subst h
        simp at hne
      · exact h
    · intro h; exact Or.inr h

theorem Kevent_delete (k : Kernel) (kq ident : Nat) (filter : Int) (fault : Option Error) :
    (k.Kevent kq [{ Ident := ident, Filter := filter, Flags := EV_DELETE, Fflags := 0 }]
        fault).1.syscalls = k.syscalls + 1
    ∧ (∀ kn : Knote, kn.kq ≠ kq ∨ kn.ident ≠ ident →
        (kn ∈ (k.Kevent kq [{ Ident := ident, Filter := filter, Flags := EV_DELETE,
                              Fflags := 0 }] fault).1.knotes ↔ kn ∈ k.knotes))
    ∧ ((k.Kevent kq [{ Ident := ident, Filter := filter, Flags := EV_DELETE, Fflags := 0 }]
          fault).2 = none →
        ∀ kn, kn ∈ (k.Kevent kq [{ Ident := ident, Filter := filter, Flags := EV_DELETE,
                                   Fflags := 0 }] fault).1.knotes
          ↔ (kn ≠ ⟨kq, ident, filter⟩ ∧ kn ∈ k.knotes)) := by
  cases fault with
  | some e => simp [Kernel.Kevent]
  | none =>
    rcases change_delete { k with syscalls := k.syscalls + 1 } kq ident filter with
      ⟨k1, h1, h2, _, h4⟩ | h1
    · simp only [Kernel.Kevent, Kernel.changes, h1]
      refine ⟨h2, ?_, fun _ => h4⟩
      intro kn hne
      rw [h4 kn]
      constructor
      · intro h; exact h.2
      · intro h
        refine ⟨?_, h⟩
        intro heq
        subst heq
        simp at hne
    · simp only [Kernel.Kevent, Kernel.changes, h1]
      simp

theorem Kevent_add2 (k : Kernel) (kq ident : Nat) (f1 f2 : Int) (fault : Option Error) :
    (k.Kevent kq [{ Ident := ident, Filter := f1, Flags := EV_ADD, Fflags := 0 },
                  { Ident := ident, Filter := f2, Flags := EV_ADD, Fflags := 0 }]
        fault).1.syscalls = k.syscalls + 1
    ∧ (∀ kn : Knote, kn.kq ≠ kq ∨ kn.ident ≠ ident →
        (kn ∈ (k.Kevent kq [{ Ident := ident, Filter := f1, Flags := EV_ADD, Fflags := 0 },
                            { Ident := ident, Filter := f2, Flags := EV_ADD, Fflags := 0 }]
            fault).1.knotes ↔ kn ∈ k.knotes))
    ∧ ((k.Kevent kq [{ Ident := ident, Filter := f1, Flags := EV_ADD, Fflags := 0 },
                     { Ident := ident, Filter := f2, Flags := EV_ADD, Fflags := 0 }]
          fault).2 = none →
        ∀ kn, kn ∈ (k.Kevent kq [{ Ident := ident, Filter := f1, Flags := EV_ADD, Fflags := 0 },
                                 { Ident := ident, Filter := f2, Flags := EV_ADD, Fflags := 0 }]
                      fault).1.knotes
          ↔ (kn = ⟨kq, ident, f1⟩ ∨ kn = ⟨kq, ident, f2⟩ ∨ kn ∈ k.knotes)) := by
  cases fault with
  | some e => simp [Kernel.Kevent]
  | none =>
    obtain ⟨k1, h1, h2, _, h4⟩ := change_add { k with syscalls := k.syscalls + 1 } kq ident f1
    obtain ⟨k2, g1, g2, _, g4⟩ := change_add k1 kq ident f2
    simp only [Kernel.Kevent, Kernel.changes, h1, g1]
    have hall : ∀ kn, kn ∈ k2.knotes
        ↔ (kn = ⟨kq, ident, f1⟩ ∨ kn = ⟨kq, ident, f2⟩ ∨ kn ∈ k.knotes) := by
      intro kn
      rw [g4 kn, h4 kn]
      constructor
      · rintro (h | h | h)
        · exact Or.inr (Or.inl h)
        · exact Or.inl h
        · exact Or.inr (Or.inr h)
      · rintro (h | h | h)
        · exact Or.inr (Or.inl h)
        · exact Or.inl h
        · exact Or.inr (Or.inr h)
    refine ⟨by rw [g2, h2], ?_, fun _ => hall⟩
    intro kn hne
    rw [hall kn]
    constructor
    · rintro (h | h | h)
      · subst h
        simp at hne
      · subst h
        simp at hne
      · exact h
    · intro h; exact Or.inr (Or.inr h)

theorem AddRead_eq (p : Poller) (fd : Int) (k : Kernel) (fault : Option Error) :
    p.AddRead fd k fault
      = k.Kevent p.fd [{ Ident := uint64 fd, Filter := EVFILT_READ, Flags := EV_ADD,
                         Fflags := 0 }] fault := by
  unfold Poller.AddRead
  split <;> rename_i h <;> rw [h]

theorem AddWrite_eq (p : Poller) (fd : Int) (k : Kernel) (fault : Option Error) :
    p.AddWrite fd k fault
      = k.Kevent p.fd [{ Ident := uint64 fd, Filter := EVFILT_WRITE, Flags := EV_ADD,
                         Fflags := 0 }] fault := by
  unfold Poller.AddWrite
  split <;> rename_i h <;> rw [h]

theorem AddReadWrite_eq (p : Poller) (fd : Int) (k : Kernel) (fault : Option Error) :
    p.AddReadWrite fd k fault
      = k.Kevent p.fd [{ Ident := uint64 fd, Filter := EVFILT_READ, Flags := EV_ADD,
                         Fflags := 0 },
                       { Ident := uint64 fd, Filter := EVFILT_WRITE, Flags := EV_ADD,
                         Fflags := 0 }] fault := by
  unfold Poller.AddReadWrite
  split <;> rename_i h <;> rw [h]

theorem ModRead_eq (p : Poller) (fd : Int) (k : Kernel) (fault : Option Error) :
    p.ModRead fd k fault
      = k.Kevent p.fd [{ Ident := uint64 fd, Filter := EVFILT_WRITE, Flags := EV_DELETE,
                         Fflags := 0 }] fault := by
  unfold Poller.ModRead
  split <;> rename_i h <;> rw [h]

theorem ModReadWrite_eq (p : Poller) (fd : Int) (k : Kernel) (fault : Option Error) :
    p.ModReadWrite fd k fault
      = k.Kevent p.fd [{ Ident := uint64 fd, Filter := EVFILT_WRITE, Flags := EV_ADD,
                         Fflags := 0 }] fault := by
  unfold Poller.ModReadWrite
  split <;> rename_i h <;> rw [h]

theorem Kevent_rejected (k : Kernel) (kq : Nat) (changes : List Kevent_t) (e : Error) :
    (k.Kevent kq changes (some e)).2 = some e
    ∧ (k.Kevent kq changes (some e)).1.knotes = k.knotes := by
  simp [Kernel.Kevent]

theorem Kevent_add_accept (k : Kernel) (kq ident : Nat) (filter : Int) (fault : Option Error) :
    (k.Kevent kq [{ Ident := ident, Filter := filter, Flags := EV_ADD, Fflags := 0 }]
        fault).2 = none ↔ fault = none := by
  cases fault with
  | some e => simp [Kernel.Kevent]
  | none =>
    obtain ⟨k1, h1, _⟩ := change_add { k with syscalls := k.syscalls + 1 } kq ident filter
    simp only [Kernel.Kevent, Kernel.changes, h1]

theorem Kevent_add2_accept (k : Kernel) (kq ident : Nat) (f1 f2 : Int)
    (fault : Option Error) :
    (k.Kevent kq [{ Ident := ident, Filter := f1, Flags := EV_ADD, Fflags := 0 },
                  { Ident := ident, Filter := f2, Flags := EV_ADD, Fflags := 0 }]
        fault).2 = none ↔ fault = none := by
  cases fault with
  | some e => simp [Kernel.Kevent]
  | none =>
    obtain ⟨k1, h1, _⟩ := change_add { k with syscalls := k.syscalls + 1 } kq ident f1
    obtain ⟨k2, g1, _⟩ := change_add k1 kq ident f2
    simp only [Kernel.Kevent, Kernel.changes, h1, g1]

theorem Kevent_delete_accept (k : Kernel) (kq ident : Nat) (filter : Int)
    (fault : Option Error) (hmem : (⟨kq, ident, filter⟩ : Knote) ∈ k.knotes) :
    (k.Kevent kq [{ Ident := ident, Filter := filter, Flags := EV_DELETE, Fflags := 0 }]
        fault).2 = none ↔ fault = none := by
  cases fault with
  | some e => simp [Kernel.Kevent]
  | none =>
    rcases change_delete { k with syscalls := k.syscalls + 1 } kq ident filter with
      ⟨k1, h1, _⟩ | h1
    · simp only [Kernel.Kevent, Kernel.changes, h1]
    · exfalso
      have hflag : ¬ (EV_DELETE &&& EV_ADD ≠ 0) := by decide
      have hmem1 : (⟨kq, ident, filter⟩ : Knote)
          ∈ ({ k with syscalls := k.syscalls + 1 } : Kernel).knotes := hmem
      simp only [Kernel.change, if_neg hflag, if_pos hmem1] at h1
      split at h1 <;> simp at h1

theorem regState_of_rejected (k : Kernel) (kq : Nat) (changes : List Kevent_t)
    (fault : Option Error) (q ident : Nat)
    (hrej : (k.Kevent kq changes fault).2 ≠ none) (hfault : fault = none →
      (k.Kevent kq changes fault).2 = none) :
    (k.Kevent kq changes fault).1.regState q ident = k.regState q ident := by
  cases fault with
  | none => exact absurd (hfault rfl) hrej
  | some e =>
    have h := (Kevent_rejected k kq changes e).2
    exact regState_congr (by rw [h]) (by rw [h])

/-! ## The claims -/

/-- C1: if an invocation of the callback made by `Polling`, for a descriptor
record or for a queued job, returns an error `e`, then `Polling` returns exactly
`e` and that invocation is the last one of the run: none follows for the rest of
the batch, for the queued jobs, or in a later iteration. -/
theorem C1_handler_error_ends_polling {σ : Type} (p : Poller) (env : Env)
    (callback : Callback σ) (hs : σ) (rs : List WaitResult) (pre post : List Call) (c : Call)
    (e : Error) (hsplit : (p.Polling env callback hs rs).calls = pre ++ c :: post)
    (hret : c.ret = some e) :
    (p.Polling env callback hs rs).flow = Flow.ret e ∧ post = [] :=
  settled_split (pollLoop_settled env callback _ rs) hsplit hret

/-- Witness of C1: the callback fails on its third invocation, the first queued
job of the first batch; the second job and the second batch are never served. -/
theorem C1_handler_error_ends_polling_witness :
    (exPoller.Polling wideEnv (failAt 2) 0 [exBatch, exBatch]).calls
        = [{ fd := 5, filter := -1, job := Job.nil, ret := none },
           { fd := 6, filter := -13, job := Job.nil, ret := none }]
          ++ { fd := 0, filter := 0, job := Job.fn 1, ret := some (Error.other 7) } :: []
    ∧ ({ fd := 0, filter := 0, job := Job.fn 1, ret := some (Error.other 7) } : Call).ret
        = some (Error.other 7)
    ∧ ((exPoller.Polling wideEnv (failAt 2) 0 [exBatch, exBatch]).flow
          = Flow.ret (Error.other 7)
        ∧ ([] : List Call) = []) :=
  ⟨by decide, rfl,
    C1_handler_error_ends_polling exPoller wideEnv (failAt 2) 0 [exBatch, exBatch]
      [{ fd := 5, filter := -1, job := Job.nil, ret := none },
       { fd := 6, filter := -13, job := Job.nil, ret := none }] []
      { fd := 0, filter := 0, job := Job.fn 1, ret := some (Error.other 7) } (Error.other 7)
      (by decide) rfl⟩

/-- C6: a wait call that fails, with `EINTR` or with any other error, causes no
invocation and no return: the run is the one without that wait result, so the
loop goes on to the next wait call in the same state; and whatever `Polling`
returns is an error that an invocation of the callback returned. A failed wait
call is one for which `unix.Kevent` gives `n = -1` with the error (`wf`). -/
theorem C6_wait_errors_never_returned {σ : Type} (p : Poller) (env : Env)
    (callback : Callback σ) (hs : σ) (pre post : List WaitResult) (r : WaitResult)
    (hfail : r.err ≠ none) (hwf : r.wf) :
    p.Polling env callback hs (pre ++ r :: post) = p.Polling env callback hs (pre ++ post)
    ∧ ∀ (rs : List WaitResult) (e : Error), (p.Polling env callback hs rs).flow = Flow.ret e →
        ∃ c ∈ (p.Polling env callback hs rs).calls, c.ret = some e := by
  refine ⟨pollLoop_skip_failed env callback _ pre post r rfl hfail hwf, ?_⟩
  intro rs e he
  have hset := pollLoop_settled env callback
    { hs := hs, p := p, el := newEventList env.initEvents, wakenUp := false } rs
  unfold Poller.Polling at he ⊢
  rw [he] at hset
  obtain ⟨pre1, c, h1, h2, _⟩ := hset
  exact ⟨c, by simp [h1], h2⟩

/-- Witness of C6: an interrupted wait call between two batches. -/
theorem C6_wait_errors_never_returned_witness :
    exInterrupted.err ≠ none ∧ exInterrupted.wf
    ∧ (exPoller.Polling wideEnv okCallback 0 ([wakeBatch] ++ exInterrupted :: [exBatch])
          = exPoller.Polling wideEnv okCallback 0 ([wakeBatch] ++ [exBatch])
        ∧ ∀ (rs : List WaitResult) (e : Error),
            (exPoller.Polling wideEnv okCallback 0 rs).flow = Flow.ret e →
              ∃ c ∈ (exPoller.Polling wideEnv okCallback 0 rs).calls, c.ret = some e) :=
  ⟨by decide, by decide,
    C6_wait_errors_never_returned exPoller wideEnv okCallback 0 [wakeBatch] [exBatch]
      exInterrupted (by decide) (by decide)⟩

/-- C4 as amended: every invocation whose descriptor argument is 0 has event kind 0
and carries a job of the job queue, as it was pushed: a non-nil job unless `nil`
itself was pushed. An invocation with a non-zero descriptor carries no job, so
no descriptor record is ever reported with descriptor 0. -/
theorem C4_sentinel_invocations_carry_queued_job {σ : Type} (p : Poller) (env : Env)
    (callback : Callback σ) (hs : σ) (rs : List WaitResult) (c : Call)
    (hc : c ∈ (p.Polling env callback hs rs).calls) :
    (c.fd = 0 →
      c.filter = 0 ∧ c.job ∈ p.asyncJobQueue.jobs
      ∧ (Job.nil ∉ p.asyncJobQueue.jobs → c.job ≠ Job.nil))
    ∧ (c.fd ≠ 0 → c.job = Job.nil) := by
  rcases pollLoop_origin env callback _ rs c hc with ⟨h, h1⟩ | ⟨h1, h2, h3⟩
  · exact ⟨fun hfd => absurd hfd h, fun _ => h1⟩
  · refine ⟨fun _ => ⟨h2, h3, ?_⟩, fun hfd => absurd h1 hfd⟩
    intro hnil heq
    rw [heq] at h3
    exact hnil h3

/-- Witness of C4: the first job drained by the batch `exBatch`. -/
theorem C4_sentinel_invocations_carry_queued_job_witness :
    ({ fd := 0, filter := 0, job := Job.fn 1, ret := none } : Call)
        ∈ (exPoller.Polling wideEnv okCallback 0 [exBatch]).calls
    ∧ (({ fd := 0, filter := 0, job := Job.fn 1, ret := none } : Call).fd = 0 →
        ({ fd := 0, filter := 0, job := Job.fn 1, ret := none } : Call).filter = 0
        ∧ ({ fd := 0, filter := 0, job := Job.fn 1, ret := none } : Call).job
            ∈ exPoller.asyncJobQueue.jobs
        ∧ (Job.nil ∉ exPoller.asyncJobQueue.jobs →
            ({ fd := 0, filter := 0, job := Job.fn 1, ret := none } : Call).job ≠ Job.nil))
    ∧ (({ fd := 0, filter := 0, job := Job.fn 1, ret := none } : Call).fd ≠ 0 →
        ({ fd := 0, filter := 0, job := Job.fn 1, ret := none } : Call).job = Job.nil) :=
  ⟨by decide,
    C4_sentinel_invocations_carry_queued_job exPoller wideEnv okCallback 0 [exBatch]
      { fd := 0, filter := 0, job := Job.fn 1, ret := none } (by decide)⟩

/-- Counterexample to C4 as stated: after `Trigger(nil)` the wake batch makes
`Polling` invoke the callback with descriptor 0 and a nil job. -/
theorem C4_counterexample :
    ¬ (∀ c ∈ (nilPoller.Polling exEnv okCallback 0 [wakeBatch]).calls,
        c.fd = 0 → c.filter = 0 ∧ c.job ≠ Job.nil) := by
  decide

/-- C10: across the iterations of `Polling` the capacity of the event list never
decreases and never falls below the initial one; it changes exactly after an
iteration whose wait call returned as many records as the capacity and after
which the loop goes on, and then the capacity of the next wait call is strictly
greater; after any other iteration, a failed wait call included, it is
unchanged. `increase` is taken to grow every capacity from the initial one
on. -/
theorem C10_capacity_grows_on_full_buffer {σ : Type} (p : Poller) (env : Env)
    (callback : Callback σ) (hs : σ) (pre : List WaitResult) (r : WaitResult)
    (hgrow : ∀ c, env.initEvents ≤ c → c < env.increase c)
    (hgo : (p.Polling env callback hs pre).flow = Flow.goOn) (hwf : r.wf) :
    env.initEvents ≤ (p.Polling env callback hs pre).st.el.size
    ∧ (p.Polling env callback hs pre).st.el.size
        ≤ (p.Polling env callback hs (pre ++ [r])).st.el.size
    ∧ ((p.Polling env callback hs (pre ++ [r])).flow = Flow.goOn
        ∧ r.n = ((p.Polling env callback hs pre).st.el.size : Int) →
          (p.Polling env callback hs pre).st.el.size
            < (p.Polling env callback hs (pre ++ [r])).st.el.size)
    ∧ (¬ ((p.Polling env callback hs (pre ++ [r])).flow = Flow.goOn
          ∧ r.n = ((p.Polling env callback hs pre).st.el.size : Int)) →
          (p.Polling env callback hs (pre ++ [r])).st.el.size
            = (p.Polling env callback hs pre).st.el.size)
    ∧ (r.err ≠ none →
          (p.Polling env callback hs (pre ++ [r])).st.el.size
            = (p.Polling env callback hs pre).st.el.size) := by
  unfold Poller.Polling at hgo ⊢
  have hinit : env.initEvents
      ≤ (pollLoop env callback
          { hs := hs, p := p, el := newEventList env.initEvents, wakenUp := false }
          pre).st.el.size := by
    have hmono : ∀ (rs : List WaitResult) (st : LoopState σ), env.initEvents ≤ st.el.size →
        st.el.size ≤ (pollLoop env callback st rs).st.el.size := by
      intro rs
      induction rs with
      | nil => intro st _; simp [pollLoop]
      | cons a rs ih =>
        intro st hst
        have hstep : st.el.size ≤ (iteration env callback st a).st.el.size := by
          rcases (iteration_capacity env callback st a).2.2 with h | h
          · omega
          · have := hgrow st.el.size hst; omega
        by_cases h : (iteration env callback st a).flow = Flow.goOn
        · rw [pollLoop_cons_goOn env callback st a rs h]
          exact le_trans hstep (ih _ (le_trans hst hstep))
        · rw [pollLoop_cons_stop env callback st a rs h]
          exact hstep
    exact hmono pre { hs := hs, p := p, el := newEventList env.initEvents, wakenUp := false }
      (Nat.le_refl env.initEvents)
  rw [pollLoop_snoc env callback _ pre r hgo]
  obtain ⟨h1, h2, h3⟩ := iteration_capacity env callback
    (pollLoop env callback
      { hs := hs, p := p, el := newEventList env.initEvents, wakenUp := false } pre).st r
  have hg := hgrow _ hinit
  have herr : r.n = ((pollLoop env callback
      { hs := hs, p := p, el := newEventList env.initEvents, wakenUp := false }
      pre).st.el.size : Int) → r.err = none := by
    intro hn
    by_contra hne
    have := hwf hne
    omega
  refine ⟨hinit, ?_, ?_, ?_, ?_⟩
  · rcases h3 with h | h <;> simp only [h] <;> omega
  · rintro ⟨ha, hb⟩
    simp only at ha ⊢
    rw [h1 ha (herr hb) hb]
    exact hg
  · intro hn
    exact h2 hn
  · intro hne
    apply h2
    rintro ⟨_, hb⟩
    exact hne (herr hb)

/-- Witness of C10: the first wait call returns two records into an event list of
capacity two, and the second wait call gets capacity four. -/
theorem C10_capacity_grows_on_full_buffer_witness :
    (∀ c, exEnv.initEvents ≤ c → c < exEnv.increase c)
    ∧ (exPoller.Polling exEnv okCallback 0 []).flow = Flow.goOn
    ∧ fullBatch.wf
    ∧ (exPoller.Polling exEnv okCallback 0 []).st.el.size = 2
    ∧ (exPoller.Polling exEnv okCallback 0 ([] ++ [fullBatch])).st.el.size = 4
    ∧ (exEnv.initEvents ≤ (exPoller.Polling exEnv okCallback 0 []).st.el.size
      ∧ (exPoller.Polling exEnv okCallback 0 []).st.el.size
          ≤ (exPoller.Polling exEnv okCallback 0 ([] ++ [fullBatch])).st.el.size
      ∧ ((exPoller.Polling exEnv okCallback 0 ([] ++ [fullBatch])).flow = Flow.goOn
          ∧ fullBatch.n = ((exPoller.Polling exEnv okCallback 0 []).st.el.size : Int) →
            (exPoller.Polling exEnv okCallback 0 []).st.el.size
              < (exPoller.Polling exEnv okCallback 0 ([] ++ [fullBatch])).st.el.size)
      ∧ (¬ ((exPoller.Polling exEnv okCallback 0 ([] ++ [fullBatch])).flow = Flow.goOn
            ∧ fullBatch.n = ((exPoller.Polling exEnv okCallback 0 []).st.el.size : Int)) →
            (exPoller.Polling exEnv okCallback 0 ([] ++ [fullBatch])).st.el.size
              = (exPoller.Polling exEnv okCallback 0 []).st.el.size)
      ∧ (fullBatch.err ≠ none →
            (exPoller.Polling exEnv okCallback 0 ([] ++ [fullBatch])).st.el.size
              = (exPoller.Polling exEnv okCallback 0 []).st.el.size)) :=
  ⟨fun c hc => by simp only [exEnv] at hc ⊢; omega, by decide, by decide, by decide, by decide,
    C10_capacity_grows_on_full_buffer exPoller exEnv okCallback 0 [] fullBatch
      (fun c hc => by simp only [exEnv] at hc ⊢; omega) (by decide) (by decide)⟩

/-- C2 as amended: for a batch of `n` records returned by a wait call in which no
invocation fails, the invocations of the iteration are, in order, one per record
with non-zero identifier among the first `n`, each as `callback(ident, kind, nil)`
with `kind = EVFilterSock` when the flags hold `EV_EOF` or `EV_ERROR` and the
filter of the record otherwise, and then, when the batch holds a record with
identifier 0, `callback(0, 0, job)` per queued job; so the invocations carrying
a nil job are those of the records, followed by one `callback(0, 0, nil)` per
nil job that was queued. A record with identifier 0 has no invocation of its
own. -/
theorem C2_descriptor_invocations {σ : Type} (env : Env) (callback : Callback σ)
    (st : LoopState σ) (r : WaitResult) (hw : st.wakenUp = false) (herr : r.err = none)
    (hn : r.n.toNat ≤ r.events.length) (hr : ∀ ev ∈ r.events, ev.Ident < 2 ^ 64)
    (hok : ∀ c ∈ (iteration env callback st r).calls, c.ret = none) :
    (iteration env callback st r).calls.map Call.args
        = ((r.events.take r.n.toNat).filter (fun ev => decide (ev.Ident ≠ 0))).map
            (fun ev => (int ev.Ident,
              if (ev.Flags &&& EV_EOF ≠ 0) ∨ (ev.Flags &&& EV_ERROR ≠ 0) then env.EVFilterSock
              else ev.Filter, Job.nil))
          ++ (if (r.events.take r.n.toNat).any (fun ev => decide (ev.Ident = 0)) then
                st.p.asyncJobQueue.jobs.map (fun job => ((0 : Int), (0 : Int), job))
              else [])
    ∧ ((iteration env callback st r).calls.filter (fun c => decide (c.job = Job.nil))).map
          Call.args
        = ((r.events.take r.n.toNat).filter (fun ev => decide (ev.Ident ≠ 0))).map
            (fun ev => (int ev.Ident,
              if (ev.Flags &&& EV_EOF ≠ 0) ∨ (ev.Flags &&& EV_ERROR ≠ 0) then env.EVFilterSock
              else ev.Filter, Job.nil))
          ++ (if (r.events.take r.n.toNat).any (fun ev => decide (ev.Ident = 0)) then
                (st.p.asyncJobQueue.jobs.filter (fun job => decide (job = Job.nil))).map
                  (fun job => ((0 : Int), (0 : Int), job))
              else []) := by
  have hshape := (iteration_shape env callback st r hw (by simp [herr]) hn hr hok).2.1
  refine ⟨hshape, ?_⟩
  have hcomm : ((iteration env callback st r).calls.filter
        (fun c => decide (c.job = Job.nil))).map Call.args
      = ((iteration env callback st r).calls.map Call.args).filter
          (fun a => decide (a.2.2 = Job.nil)) := by
    rw [List.filter_map]
    rfl
  rw [hcomm, hshape, List.filter_append]
  congr 1
  · rw [List.filter_map]
    congr 1
    apply List.filter_eq_self.mpr
    intro a _
    simp
  · split
    · rw [List.filter_map]
      rfl
    · rfl

/-- Witness of C2: the batch `exBatch` served with two jobs queued. -/
theorem C2_descriptor_invocations_witness :
    exState.wakenUp = false ∧ exBatch.err = none
    ∧ exBatch.n.toNat ≤ exBatch.events.length
    ∧ (∀ ev ∈ exBatch.events, ev.Ident < 2 ^ 64)
    ∧ (∀ c ∈ (iteration exEnv okCallback exState exBatch).calls, c.ret = none)
    ∧ (iteration exEnv okCallback exState exBatch).calls.map Call.args
        = [(5, EVFILT_READ, Job.nil), (6, exEnv.EVFilterSock, Job.nil),
           (0, 0, Job.fn 1), (0, 0, Job.fn 2)]
    ∧ ((iteration exEnv okCallback exState exBatch).calls.map Call.args
        = ((exBatch.events.take exBatch.n.toNat).filter (fun ev => decide (ev.Ident ≠ 0))).map
            (fun ev => (int ev.Ident,
              if (ev.Flags &&& EV_EOF ≠ 0) ∨ (ev.Flags &&& EV_ERROR ≠ 0) then
                exEnv.EVFilterSock
              else ev.Filter, Job.nil))
          ++ (if (exBatch.events.take exBatch.n.toNat).any (fun ev => decide (ev.Ident = 0))
              then exState.p.asyncJobQueue.jobs.map (fun job => ((0 : Int), (0 : Int), job))
              else [])
      ∧ ((iteration exEnv okCallback exState exBatch).calls.filter
            (fun c => decide (c.job = Job.nil))).map Call.args
        = ((exBatch.events.take exBatch.n.toNat).filter (fun ev => decide (ev.Ident ≠ 0))).map
            (fun ev => (int ev.Ident,
              if (ev.Flags &&& EV_EOF ≠ 0) ∨ (ev.Flags &&& EV_ERROR ≠ 0) then
                exEnv.EVFilterSock
              else ev.Filter, Job.nil))
          ++ (if (exBatch.events.take exBatch.n.toNat).any (fun ev => decide (ev.Ident = 0))
              then (exState.p.asyncJobQueue.jobs.filter
                      (fun job => decide (job = Job.nil))).map
                    (fun job => ((0 : Int), (0 : Int), job))
              else [])) :=
  ⟨rfl, rfl, by decide, by decide, by decide, by decide,
    C2_descriptor_invocations exEnv okCallback exState exBatch rfl rfl (by decide) (by decide)
      (by decide)⟩

/-- Counterexample to C2 as stated: with a nil job queued, the wake batch holds no
record with a non-zero identifier, no invocation fails, and still one invocation
carries a nil job, `callback(0, 0, nil)`. -/
theorem C2_counterexample :
    nilState.wakenUp = false ∧ wakeBatch.err = none
    ∧ wakeBatch.n.toNat ≤ wakeBatch.events.length
    ∧ (∀ c ∈ (iteration exEnv okCallback nilState wakeBatch).calls, c.ret = none)
    ∧ ((iteration exEnv okCallback nilState wakeBatch).calls.filter
          (fun c => decide (c.job = Job.nil))).map Call.args
        = [(0, 0, Job.nil)]
    ∧ ((wakeBatch.events.take wakeBatch.n.toNat).filter (fun ev => decide (ev.Ident ≠ 0))).map
          (fun ev => (int ev.Ident,
            if (ev.Flags &&& EV_EOF ≠ 0) ∨ (ev.Flags &&& EV_ERROR ≠ 0) then exEnv.EVFilterSock
            else ev.Filter, Job.nil))
        = []
    ∧ ((iteration exEnv okCallback nilState wakeBatch).calls.filter
          (fun c => decide (c.job = Job.nil))).map Call.args
        ≠ ((wakeBatch.events.take wakeBatch.n.toNat).filter
            (fun ev => decide (ev.Ident ≠ 0))).map
          (fun ev => (int ev.Ident,
            if (ev.Flags &&& EV_EOF ≠ 0) ∨ (ev.Flags &&& EV_ERROR ≠ 0) then exEnv.EVFilterSock
            else ev.Filter, Job.nil)) := by
  decide

/-- C3: with the loop at a wait call, after any sequence of `Trigger(job)` calls
(whether or not their kernel calls succeed), a batch that holds the wake record
and in which no invocation fails makes `Polling` serve the descriptor records
first and then every queued job exactly once, in push order, each as
`callback(0, 0, job)`: the jobs queued before, then the triggered ones; the loop
goes on and no job is left queued. -/
theorem C3_triggered_jobs_delivered_fifo {σ : Type} (env : Env) (callback : Callback σ)
    (st : LoopState σ) (k : Kernel) (pushes : List (Job × Option Error)) (r : WaitResult)
    (_hN : 1 ≤ pushes.length) (hw : st.wakenUp = false) (herr : r.err = none)
    (hn : r.n.toNat ≤ r.events.length) (hr : ∀ ev ∈ r.events, ev.Ident < 2 ^ 64)
    (hwake : ∃ ev ∈ r.events.take r.n.toNat, ev.Ident = 0)
    (hok : ∀ c ∈ (iteration env callback
              { st with p := (triggerAll st.p k pushes).1 } r).calls, c.ret = none) :
    (iteration env callback { st with p := (triggerAll st.p k pushes).1 } r).flow = Flow.goOn
    ∧ (iteration env callback { st with p := (triggerAll st.p k pushes).1 } r).calls.map
          Call.args
        = ((r.events.take r.n.toNat).filter (fun ev => decide (ev.Ident ≠ 0))).map
            (fun ev => (int ev.Ident,
              if (ev.Flags &&& EV_EOF ≠ 0) ∨ (ev.Flags &&& EV_ERROR ≠ 0) then env.EVFilterSock
              else ev.Filter, Job.nil))
          ++ (st.p.asyncJobQueue.jobs ++ pushes.map Prod.fst).map
              (fun job => ((0 : Int), (0 : Int), job))
    ∧ (iteration env callback
          { st with p := (triggerAll st.p k pushes).1 } r).st.p.asyncJobQueue.jobs = [] := by
  have hany : (r.events.take r.n.toNat).any (fun ev => decide (ev.Ident = 0)) = true := by
    obtain ⟨ev, h1, h2⟩ := hwake
    exact List.any_eq_true.mpr ⟨ev, h1, by simp [h2]⟩
  obtain ⟨h1, h2, h3⟩ := iteration_shape env callback
    { st with p := (triggerAll st.p k pushes).1 } r hw (by simp [herr]) hn hr hok
  refine ⟨h1, ?_, h3 hany⟩
  rw [h2, hany]
  simp only [if_true]
  rw [(triggerAll_queue st.p k pushes).1]

/-- Witness of C3: two `Trigger` calls, the kernel call of the second one
rejected, then the batch `exBatch`. -/
theorem C3_triggered_jobs_delivered_fifo_witness :
    1 ≤ [(Job.fn 8, (none : Option Error)), (Job.fn 9, some ENOMEM)].length
    ∧ exState.wakenUp = false ∧ exBatch.err = none
    ∧ exBatch.n.toNat ≤ exBatch.events.length
    ∧ (∀ ev ∈ exBatch.events, ev.Ident < 2 ^ 64)
    ∧ (∃ ev ∈ exBatch.events.take exBatch.n.toNat, ev.Ident = 0)
    ∧ (iteration exEnv okCallback
          { exState with
            p := (triggerAll exState.p exKernel
                    [(Job.fn 8, none), (Job.fn 9, some ENOMEM)]).1 } exBatch).calls.map
          Call.args
        = [(5, EVFILT_READ, Job.nil), (6, exEnv.EVFilterSock, Job.nil), (0, 0, Job.fn 1),
           (0, 0, Job.fn 2), (0, 0, Job.fn 8), (0, 0, Job.fn 9)]
    ∧ ((iteration exEnv okCallback
          { exState with
            p := (triggerAll exState.p exKernel
                    [(Job.fn 8, none), (Job.fn 9, some ENOMEM)]).1 } exBatch).flow = Flow.goOn
      ∧ (iteration exEnv okCallback
          { exState with
            p := (triggerAll exState.p exKernel
                    [(Job.fn 8, none), (Job.fn 9, some ENOMEM)]).1 } exBatch).calls.map
            Call.args
          = ((exBatch.events.take exBatch.n.toNat).filter
              (fun ev => decide (ev.Ident ≠ 0))).map
              (fun ev => (int ev.Ident,
                if (ev.Flags &&& EV_EOF ≠ 0) ∨ (ev.Flags &&& EV_ERROR ≠ 0) then
                  exEnv.EVFilterSock
                else ev.Filter, Job.nil))
            ++ (exState.p.asyncJobQueue.jobs
                ++ [(Job.fn 8, (none : Option Error)), (Job.fn 9, some ENOMEM)].map
                    Prod.fst).map
                (fun job => ((0 : Int), (0 : Int), job))
      ∧ (iteration exEnv okCallback
          { exState with
            p := (triggerAll exState.p exKernel
                    [(Job.fn 8, none), (Job.fn 9, some ENOMEM)]).1 }
          exBatch).st.p.asyncJobQueue.jobs = []) :=
  ⟨by decide, rfl, rfl, by decide, by decide, by decide, by decide,
    C3_triggered_jobs_delivered_fifo exEnv okCallback exState exKernel
      [(Job.fn 8, none), (Job.fn 9, some ENOMEM)] exBatch (by decide) rfl rfl (by decide)
      (by decide) (by decide) (by decide)⟩

/-- C5: `Trigger(job)` appends the job to the queue whatever the kernel call
gives, and its result is exactly the error of that kernel call: non-nil if and
only if the kernel call fails; a rejection `e` of the kernel comes back as `e`
with the job queued. -/
theorem C5_trigger_queues_job_and_returns_kernel_error (p : Poller) (job : Job) (k : Kernel)
    (fault : Option Error) :
    (p.Trigger job k fault).1.asyncJobQueue.jobs = p.asyncJobQueue.jobs ++ [job]
    ∧ (p.Trigger job k fault).2.2
        = (k.Kevent p.fd [{ Ident := 0, Filter := EVFILT_USER, Flags := 0,
                            Fflags := NOTE_TRIGGER }] fault).2
    ∧ ((p.Trigger job k fault).2.2 ≠ none
        ↔ (k.Kevent p.fd [{ Ident := 0, Filter := EVFILT_USER, Flags := 0,
                             Fflags := NOTE_TRIGGER }] fault).2 ≠ none)
    ∧ (∀ e, fault = some e →
        (p.Trigger job k fault).2.2 = some e
        ∧ job ∈ (p.Trigger job k fault).1.asyncJobQueue.jobs) := by
  refine ⟨by simp [Poller.Trigger, AsyncJobQueue.Push], by simp [Poller.Trigger],
    by simp [Poller.Trigger], ?_⟩
  intro e he
  subst he
  simp [Poller.Trigger, AsyncJobQueue.Push, Kernel.Kevent]

/-- C7: in the kernel model, where the state of a descriptor is the set of the
filters registered for it, a registration call made from the stated source state
is accepted exactly when the kernel does not reject it, and an accepted call
lands in the stated target state: `AddRead` takes Unregistered to ReadOnly,
`AddWrite` Unregistered to WriteOnly, `AddReadWrite` Unregistered to ReadWrite
with one kernel call, `ModRead` ReadWrite to ReadOnly, `ModReadWrite` ReadOnly to
ReadWrite; a rejected call leaves the descriptor in its source state; after
`AddReadWrite` then `ModRead` the descriptor has no write filter left; and no
call changes the state of another identifier or of another queue. -/
theorem C7_registration_transitions (p : Poller) (fd : Int) (k : Kernel)
    (fault : Option Error) (_hfd : fd ≠ 0) :
    (k.regState p.fd (uint64 fd) = RegState.Unregistered →
        ((p.AddRead fd k fault).2 = none ↔ fault = none)
        ∧ ((p.AddRead fd k fault).2 = none →
            (p.AddRead fd k fault).1.regState p.fd (uint64 fd) = RegState.ReadOnly)
        ∧ ((p.AddRead fd k fault).2 ≠ none →
            (p.AddRead fd k fault).1.regState p.fd (uint64 fd) = RegState.Unregistered))
    ∧ (k.regState p.fd (uint64 fd) = RegState.Unregistered →
        ((p.AddWrite fd k fault).2 = none ↔ fault = none)
        ∧ ((p.AddWrite fd k fault).2 = none →
            (p.AddWrite fd k fault).1.regState p.fd (uint64 fd) = RegState.WriteOnly)
        ∧ ((p.AddWrite fd k fault).2 ≠ none →
            (p.AddWrite fd k fault).1.regState p.fd (uint64 fd) = RegState.Unregistered))
    ∧ (k.regState p.fd (uint64 fd) = RegState.Unregistered →
        ((p.AddReadWrite fd k fault).2 = none ↔ fault = none)
        ∧ ((p.AddReadWrite fd k fault).2 = none →
            (p.AddReadWrite fd k fault).1.regState p.fd (uint64 fd) = RegState.ReadWrite)
        ∧ ((p.AddReadWrite fd k fault).2 ≠ none →
            (p.AddReadWrite fd k fault).1.regState p.fd (uint64 fd)
              = RegState.Unregistered))
    ∧ (p.AddReadWrite fd k fault).1.syscalls = k.syscalls + 1
    ∧ (k.regState p.fd (uint64 fd) = RegState.ReadWrite →
        ((p.ModRead fd k fault).2 = none ↔ fault = none)
        ∧ ((p.ModRead fd k fault).2 = none →
            (p.ModRead fd k fault).1.regState p.fd (uint64 fd) = RegState.ReadOnly)
        ∧ ((p.ModRead fd k fault).2 ≠ none →
            (p.ModRead fd k fault).1.regState p.fd (uint64 fd) = RegState.ReadWrite))
    ∧ (k.regState p.fd (uint64 fd) = RegState.ReadOnly →
        ((p.ModReadWrite fd k fault).2 = none ↔ fault = none)
        ∧ ((p.ModReadWrite fd k fault).2 = none →
            (p.ModReadWrite fd k fault).1.regState p.fd (uint64 fd) = RegState.ReadWrite)
        ∧ ((p.ModReadWrite fd k fault).2 ≠ none →
            (p.ModReadWrite fd k fault).1.regState p.fd (uint64 fd) = RegState.ReadOnly))
    ∧ (k.regState p.fd (uint64 fd) = RegState.Unregistered →
        (p.AddReadWrite fd k none).2 = none
        ∧ (p.ModRead fd (p.AddReadWrite fd k none).1 none).2 = none
        ∧ (⟨p.fd, uint64 fd, EVFILT_WRITE⟩ : Knote)
            ∉ (p.ModRead fd (p.AddReadWrite fd k none).1 none).1.knotes
        ∧ (p.ModRead fd (p.AddReadWrite fd k none).1 none).1.regState p.fd (uint64 fd)
            = RegState.ReadOnly)
    ∧ (∀ kq ident : Nat, kq ≠ p.fd ∨ ident ≠ uint64 fd →
        (p.AddRead fd k fault).1.regState kq ident = k.regState kq ident
        ∧ (p.AddWrite fd k fault).1.regState kq ident = k.regState kq ident
        ∧ (p.AddReadWrite fd k fault).1.regState kq ident = k.regState kq ident
        ∧ (p.ModRead fd k fault).1.regState kq ident = k.regState kq ident
        ∧ (p.ModReadWrite fd k fault).1.regState kq ident = k.regState kq ident) := by
  have hne := read_ne_write p.fd (uint64 fd)
  have addRW : ∀ k0 : Kernel, ∀ f : Option Error,
      k0.regState p.fd (uint64 fd) = RegState.Unregistered →
      (p.AddReadWrite fd k0 f).2 = none →
      (p.AddReadWrite fd k0 f).1.regState p.fd (uint64 fd) = RegState.ReadWrite := by
    intro k0 f hU hacc
    rw [AddReadWrite_eq] at hacc ⊢
    have hk := (Kevent_add2 k0 p.fd (uint64 fd) EVFILT_READ EVFILT_WRITE f).2.2 hacc
    exact (regState_iff _ p.fd (uint64 fd)).2.2.2.mpr
      ⟨(hk _).mpr (Or.inl rfl), (hk _).mpr (Or.inr (Or.inl rfl))⟩
  have modR : ∀ k0 : Kernel, ∀ f : Option Error,
      k0.regState p.fd (uint64 fd) = RegState.ReadWrite →
      (p.ModRead fd k0 f).2 = none →
      (⟨p.fd, uint64 fd, EVFILT_WRITE⟩ : Knote) ∉ (p.ModRead fd k0 f).1.knotes
      ∧ (p.ModRead fd k0 f).1.regState p.fd (uint64 fd) = RegState.ReadOnly := by
    intro k0 f hU hacc
    rw [ModRead_eq] at hacc ⊢
    have hk := (Kevent_delete k0 p.fd (uint64 fd) EVFILT_WRITE f).2.2 hacc
    have hU1 := (regState_iff k0 p.fd (uint64 fd)).2.2.2.mp hU
    have hw : (⟨p.fd, uint64 fd, EVFILT_WRITE⟩ : Knote)
        ∉ (k0.Kevent p.fd [{ Ident := uint64 fd, Filter := EVFILT_WRITE, Flags := EV_DELETE,
                             Fflags := 0 }] f).1.knotes := by
      intro h
      exact ((hk _).mp h).1 rfl
    exact ⟨hw, (regState_iff _ p.fd (uint64 fd)).2.1.mpr ⟨(hk _).mpr ⟨hne, hU1.1⟩, hw⟩⟩
  have addRWacc : ∀ k0 : Kernel, ∀ f : Option Error,
      ((p.AddReadWrite fd k0 f).2 = none ↔ f = none) := by
    intro k0 f
    rw [AddReadWrite_eq]
    exact Kevent_add2_accept k0 p.fd (uint64 fd) EVFILT_READ EVFILT_WRITE f
  have modRacc : ∀ k0 : Kernel, ∀ f : Option Error,
      k0.regState p.fd (uint64 fd) = RegState.ReadWrite →
      ((p.ModRead fd k0 f).2 = none ↔ f = none) := by
    intro k0 f hU
    rw [ModRead_eq]
    exact Kevent_delete_accept k0 p.fd (uint64 fd) EVFILT_WRITE f
      ((regState_iff k0 p.fd (uint64 fd)).2.2.2.mp hU).2
  refine ⟨?_, ?_, ?_, ?_, ?_, ?_, ?_, ?_⟩
  · intro hU
    have hacc := Kevent_add_accept k p.fd (uint64 fd) EVFILT_READ fault
    rw [AddRead_eq]
    refine ⟨hacc, ?_, ?_⟩
    · intro h
      have hk := (Kevent_add k p.fd (uint64 fd) EVFILT_READ fault).2.2 h
      have hU1 := (regState_iff k p.fd (uint64 fd)).1.mp hU
      refine (regState_iff _ p.fd (uint64 fd)).2.1.mpr ⟨(hk _).mpr (Or.inl rfl), ?_⟩
      intro h
      rcases (hk _).mp h with h | h
      · exact hne h.symm
      · exact hU1.2 h
    · intro h
      rw [regState_of_rejected k p.fd _ fault p.fd (uint64 fd) h hacc.mpr]
      exact hU
  · intro hU
    have hacc := Kevent_add_accept k p.fd (uint64 fd) EVFILT_WRITE fault
    rw [AddWrite_eq]
    refine ⟨hacc, ?_, ?_⟩
    · intro h
      have hk := (Kevent_add k p.fd (uint64 fd) EVFILT_WRITE fault).2.2 h
      have hU1 := (regState_iff k p.fd (uint64 fd)).1.mp hU
      refine (regState_iff _ p.fd (uint64 fd)).2.2.1.mpr ⟨?_, (hk _).mpr (Or.inl rfl)⟩
      intro h
      rcases (hk _).mp h with h | h
      · exact hne h
      · exact hU1.1 h
    · intro h
      rw [regState_of_rejected k p.fd _ fault p.fd (uint64 fd) h hacc.mpr]
      exact hU
  · intro hU
    refine ⟨addRWacc k fault, addRW k fault hU, ?_⟩
    intro h
    have hacc := addRWacc k fault
    rw [AddReadWrite_eq] at h hacc ⊢
    rw [regState_of_rejected k p.fd _ fault p.fd (uint64 fd) h hacc.mpr]
    exact hU
  · rw [AddReadWrite_eq]
    exact (Kevent_add2 k p.fd (uint64 fd) EVFILT_READ EVFILT_WRITE fault).1
  · intro hU
    refine ⟨modRacc k fault hU, fun h => (modR k fault hU h).2, ?_⟩
    intro h
    have hacc := modRacc k fault hU
    rw [ModRead_eq] at h hacc ⊢
    rw [regState_of_rejected k p.fd _ fault p.fd (uint64 fd) h hacc.mpr]
    exact hU
  · intro hU
    have hacc := Kevent_add_accept k p.fd (uint64 fd) EVFILT_WRITE fault
    rw [ModReadWrite_eq]
    refine ⟨hacc, ?_, ?_⟩
    · intro h
      have hk := (Kevent_add k p.fd (uint64 fd) EVFILT_WRITE fault).2.2 h
      have hU1 := (regState_iff k p.fd (uint64 fd)).2.1.mp hU
      exact (regState_iff _ p.fd (uint64 fd)).2.2.2.mpr
        ⟨(hk _).mpr (Or.inr hU1.1), (hk _).mpr (Or.inl rfl)⟩
    · intro h
      rw [regState_of_rejected k p.fd _ fault p.fd (uint64 fd) h hacc.mpr]
      exact hU
  · intro hU
    have h1 : (p.AddReadWrite fd k none).2 = none := (addRWacc k none).mpr rfl
    have h2 := addRW k none hU h1
    have h3 : (p.ModRead fd (p.AddReadWrite fd k none).1 none).2 = none :=
      (modRacc _ none h2).mpr rfl
    exact ⟨h1, h3, modR _ none h2 h3⟩
  · intro kq ident hother
    have hfr : ∀ f : Int, (⟨kq, ident, f⟩ : Knote).kq ≠ p.fd
        ∨ (⟨kq, ident, f⟩ : Knote).ident ≠ uint64 fd := fun _ => hother
    rw [AddRead_eq, AddWrite_eq, AddReadWrite_eq, ModRead_eq, ModReadWrite_eq]
    exact ⟨regState_congr
        ((Kevent_add k p.fd (uint64 fd) EVFILT_READ fault).2.1 _ (hfr _))
        ((Kevent_add k p.fd (uint64 fd) EVFILT_READ fault).2.1 _ (hfr _)),
      regState_congr
        ((Kevent_add k p.fd (uint64 fd) EVFILT_WRITE fault).2.1 _ (hfr _))
        ((Kevent_add k p.fd (uint64 fd) EVFILT_WRITE fault).2.1 _ (hfr _)),
      regState_congr
        ((Kevent_add2 k p.fd (uint64 fd) EVFILT_READ EVFILT_WRITE fault).2.1 _ (hfr _))
        ((Kevent_add2 k p.fd (uint64 fd) EVFILT_READ EVFILT_WRITE fault).2.1 _ (hfr _)),
      regState_congr
        ((Kevent_delete k p.fd (uint64 fd) EVFILT_WRITE fault).2.1 _ (hfr _))
        ((Kevent_delete k p.fd (uint64 fd) EVFILT_WRITE fault).2.1 _ (hfr _)),
      regState_congr
        ((Kevent_add k p.fd (uint64 fd) EVFILT_WRITE fault).2.1 _ (hfr _))
        ((Kevent_add k p.fd (uint64 fd) EVFILT_WRITE fault).2.1 _ (hfr _))⟩

/-- Witness of C7: descriptor 9 on the queue of `exPoller`, from a kernel with
nothing registered for it and no rejection: `AddRead(9)` is accepted and
reaches ReadOnly, `AddWrite(9)` WriteOnly, `AddReadWrite(9)` ReadWrite with one
kernel call; from there `ModRead(9)` is accepted and leaves ReadOnly with no
write filter; and `ModReadWrite(9)` after `AddRead(9)` reaches ReadWrite. -/
theorem C7_registration_transitions_witness :
    (9 : Int) ≠ 0
    ∧ exKernel.regState exPoller.fd (uint64 9) = RegState.Unregistered
    ∧ ((exPoller.AddRead 9 exKernel none).2 = none
        ∧ (exPoller.AddRead 9 exKernel none).1.regState exPoller.fd (uint64 9)
            = RegState.ReadOnly)
    ∧ ((exPoller.AddWrite 9 exKernel none).2 = none
        ∧ (exPoller.AddWrite 9 exKernel none).1.regState exPoller.fd (uint64 9)
            = RegState.WriteOnly)
    ∧ ((exPoller.AddReadWrite 9 exKernel none).2 = none
        ∧ (exPoller.AddReadWrite 9 exKernel none).1.regState exPoller.fd (uint64 9)
            = RegState.ReadWrite)
    ∧ (exPoller.AddReadWrite 9 exKernel none).1.syscalls = exKernel.syscalls + 1
    ∧ ((exPoller.ModRead 9 (exPoller.AddReadWrite 9 exKernel none).1 none).2 = none
        ∧ (⟨exPoller.fd, uint64 9, EVFILT_WRITE⟩ : Knote)
            ∉ (exPoller.ModRead 9 (exPoller.AddReadWrite 9 exKernel none).1 none).1.knotes
        ∧ (exPoller.ModRead 9 (exPoller.AddReadWrite 9 exKernel none).1 none).1.regState
            exPoller.fd (uint64 9) = RegState.ReadOnly)
    ∧ ((exPoller.ModReadWrite 9 (exPoller.AddRead 9 exKernel none).1 none).2 = none
        ∧ (exPoller.ModReadWrite 9 (exPoller.AddRead 9 exKernel none).1 none).1.regState
            exPoller.fd (uint64 9) = RegState.ReadWrite)
    ∧ ((exPoller.AddRead 9 exKernel (some EBADF)).2 = some EBADF
        ∧ (exPoller.AddRead 9 exKernel (some EBADF)).1.regState exPoller.fd (uint64 9)
            = RegState.Unregistered) :=
  ⟨by decide, by decide,
    ⟨((C7_registration_transitions exPoller 9 exKernel none (by decide)).1
        (by decide)).1.mpr rfl,
      ((C7_registration_transitions exPoller 9 exKernel none (by decide)).1
        (by decide)).2.1 (by decide)⟩,
    ⟨((C7_registration_transitions exPoller 9 exKernel none (by decide)).2.1
        (by decide)).1.mpr rfl,
      ((C7_registration_transitions exPoller 9 exKernel none (by decide)).2.1
        (by decide)).2.1 (by decide)⟩,
    ⟨((C7_registration_transitions exPoller 9 exKernel none (by decide)).2.2.1
        (by decide)).1.mpr rfl,
      ((C7_registration_transitions exPoller 9 exKernel none (by decide)).2.2.1
        (by decide)).2.1 (by decide)⟩,
    (C7_registration_transitions exPoller 9 exKernel none (by decide)).2.2.2.1,
    ⟨((C7_registration_transitions exPoller 9 exKernel none (by decide)).2.2.2.2.2.2.1
        (by decide)).2.1,
      ((C7_registration_transitions exPoller 9 exKernel none (by decide)).2.2.2.2.2.2.1
        (by decide)).2.2⟩,
    ⟨((C7_registration_transitions exPoller 9 (exPoller.AddRead 9 exKernel none).1 none
        (by decide)).2.2.2.2.2.1 (by decide)).1.mpr rfl,
      ((C7_registration_transitions exPoller 9 (exPoller.AddRead 9 exKernel none).1 none
        (by decide)).2.2.2.2.2.1 (by decide)).2.1 (by decide)⟩,
    ⟨by decide,
      ((C7_registration_transitions exPoller 9 exKernel (some EBADF) (by decide)).1
        (by decide)).2.2 (by decide)⟩⟩

/-- C8 as amended: `Delete(fd)` makes no kernel call and returns nil, so the
registration state of the descriptor after it is the state before it:
Unregistered only if the descriptor was Unregistered already. -/
theorem C8_delete_leaves_registration (p : Poller) (fd : Int) (k : Kernel) :
    (p.Delete fd k).2 = none
    ∧ (p.Delete fd k).1 = k
    ∧ (p.Delete fd k).1.regState p.fd (uint64 fd) = k.regState p.fd (uint64 fd)
    ∧ ((p.Delete fd k).1.regState p.fd (uint64 fd) = RegState.Unregistered
        ↔ k.regState p.fd (uint64 fd) = RegState.Unregistered) := by
  simp [Poller.Delete]

/-- Counterexample to C8 as stated: descriptor 7 is registered for reading, and is
still ReadOnly, not Unregistered, after `Delete(7)`. -/
theorem C8_counterexample :
    (exPoller.AddRead 7 exKernel none).2 = none
    ∧ (exPoller.AddRead 7 exKernel none).1.regState exPoller.fd (uint64 7) = RegState.ReadOnly
    ∧ (exPoller.Delete 7 (exPoller.AddRead 7 exKernel none).1).1.regState exPoller.fd (uint64 7)
        = RegState.ReadOnly
    ∧ (exPoller.Delete 7 (exPoller.AddRead 7 exKernel none).1).1.regState exPoller.fd (uint64 7)
        ≠ RegState.Unregistered := by
  decide

/-- C9, what the code does: when the handle is acquired and the registration of
the wake filter fails with `e`, `OpenPoller` returns no poller and the error `e`,
and the handle is still open: no `unix.Close` is made on it. -/
theorem C9_failed_open_leaves_handle_open (k : Kernel) (kfd : Nat) (e : Error) :
    (OpenPoller k (Except.ok kfd) (some e)).2.1 = none
    ∧ (OpenPoller k (Except.ok kfd) (some e)).2.2 = some e
    ∧ kfd ∈ (OpenPoller k (Except.ok kfd) (some e)).1.fds
    ∧ (OpenPoller k (Except.ok kfd) (some e)).1.fds = kfd :: k.fds := by
  simp [OpenPoller, Kernel.Kqueue, Kernel.Kevent]

end netpoll
